import Mathlib

/-!
Verification of the board-state core of the TalFish chess engine
(src/src/position.cpp, a Stockfish-derived Position implementation).

The development shallowly embeds the Position/StateInfo data model and the
operations the specification talks about: `set` / `set_state` / `fen`,
`do_move` / `undo_move`, `do_null_move` / `undo_null_move`, `legal`,
`see_ge`, `is_draw`, the repetition bookkeeping and the cuckoo-table
construction of `Position::init`.

Machine integers are embedded as `Nat` (bitboards and Zobrist keys are
XOR/AND/OR combinations of values below 2^64, which stay below 2^64) and
`Int` where the source uses signed arithmetic.  The board-geometry leaf
utilities (bitboard.h), the inline piece-manipulation helpers of position.h
and the piece values of types.h are not part of src/ and are modelled from
the specification, which describes them as pre-existing collaborators;
each such definition carries a doc comment saying so.
-/

namespace TalFish

/-- The two sides.  WHITE = 0, BLACK = 1 in the source. -/
inductive Color where
  | white
  | black
deriving DecidableEq, Repr

/-- `operator~(Color)`: flip the side. -/
def Color.flip : Color → Color
  | .white => .black
  | .black => .white

/-- Modelled from the spec: squares are 0..63, file = s % 8 (a..h). -/
def fileOf (s : Nat) : Nat := s % 8

/-- Modelled from the spec: rank = s / 8 (rank 1 .. rank 8). -/
def rankOf (s : Nat) : Nat := s / 8

/-- Modelled from the spec: a bitboard is a 64-bit integer whose bit `i`
represents square `i`; `sqBB s` is the singleton bitboard of square s. -/
def sqBB (s : Nat) : Nat := 1 <<< s

/-- The full 64-bit mask, used to embed C++ `~` on 64-bit bitboards. -/
def bbFull : Nat := 2 ^ 64 - 1

/-- 64-bit complement of a bitboard (all embedded bitboards are < 2^64). -/
def bbNot (b : Nat) : Nat := bbFull ^^^ b

/-- `more_than_one(b)`: does the bitboard have at least two set bits? -/
def moreThanOne (b : Nat) : Bool := b &&& (b - 1) ≠ 0

/-- `relative_square(c, s)`: s for White, the vertically mirrored square
for Black (`s ^ 56` in the source). -/
def relativeSquare (c : Color) (s : Nat) : Nat :=
  if c = .white then s else s ^^^ 56

/-- Index of the least significant set bit (0 for the empty bitboard),
embedding `lsb`.  The fuel 64 covers every bitboard below 2^64. -/
def lsbAux : Nat → Nat → Nat
  | 0, _ => 0
  | fuel + 1, b => if b % 2 = 1 then 0 else 1 + lsbAux fuel (b / 2)

def lsbSq (b : Nat) : Nat := lsbAux 64 b

/-- `least_significant_square_bb(b) = b & -b` on 64-bit two's complement. -/
def lssb (b : Nat) : Nat := b &&& (2 ^ 64 - b)

/-- Modelled from the spec: the square reached from `s` by a (file, rank)
offset, if it stays on the board. -/
def stepSq (s : Nat) (df dr : Int) : Option Nat :=
  let f : Int := (fileOf s : Int) + df
  let r : Int := (rankOf s : Int) + dr
  if 0 ≤ f ∧ f < 8 ∧ 0 ≤ r ∧ r < 8 then some (r.toNat * 8 + f.toNat) else none

/-- Modelled from the spec: the bitboard of the on-board squares reached
from `s` by the given offsets. -/
def stepsBB (s : Nat) (ds : List (Int × Int)) : Nat :=
  ds.foldl (fun b d => match stepSq s d.1 d.2 with
    | some t => b ||| sqBB t
    | none => b) 0

/-- Modelled from the spec: knight attack bitboard. -/
def knightAttacks (s : Nat) : Nat :=
  stepsBB s [(1, 2), (2, 1), (2, -1), (1, -2), (-1, -2), (-2, -1), (-2, 1), (-1, 2)]

/-- Modelled from the spec: king attack bitboard. -/
def kingAttacks (s : Nat) : Nat :=
  stepsBB s [(1, 0), (1, 1), (0, 1), (-1, 1), (-1, 0), (-1, -1), (0, -1), (1, -1)]

/-- Modelled from the spec: `pawn_attacks_bb(c, s)`, the two forward
diagonal squares for color c. -/
def pawnAttacks (c : Color) (s : Nat) : Nat :=
  match c with
  | .white => stepsBB s [(-1, 1), (1, 1)]
  | .black => stepsBB s [(-1, -1), (1, -1)]

/-- Modelled from the spec: walk a ray from `s` in direction (df, dr) over
occupancy `occ`, collecting squares up to and including the first occupied
square.  Fuel 7 covers the longest board ray. -/
def rayGo (occ : Nat) (df dr : Int) : Nat → Nat → Nat → Nat
  | 0, _, acc => acc
  | fuel + 1, s, acc =>
    match stepSq s df dr with
    | none => acc
    | some t =>
      if occ.testBit t then acc ||| sqBB t
      else rayGo occ df dr fuel t (acc ||| sqBB t)

def rayBB (occ : Nat) (s : Nat) (d : Int × Int) : Nat := rayGo occ d.1 d.2 7 s 0

/-- Modelled from the spec: bishop attacks from `s` given occupancy. -/
def bishopAttacks (s : Nat) (occ : Nat) : Nat :=
  [((1 : Int), (1 : Int)), (1, -1), (-1, -1), (-1, 1)].foldl
    (fun b d => b ||| rayBB occ s d) 0

/-- Modelled from the spec: rook attacks from `s` given occupancy. -/
def rookAttacks (s : Nat) (occ : Nat) : Nat :=
  [((1 : Int), (0 : Int)), (0, 1), (-1, 0), (0, -1)].foldl
    (fun b d => b ||| rayBB occ s d) 0

/-- Modelled from the spec: queen attacks from `s` given occupancy. -/
def queenAttacks (s : Nat) (occ : Nat) : Nat := bishopAttacks s occ ||| rookAttacks s occ

/-- Modelled from the spec: `attacks_bb(pt, s, occ)` for the non-pawn
piece types (KNIGHT=2, BISHOP=3, ROOK=4, QUEEN=5, KING=6). -/
def attacksBBPt (pt : Nat) (s : Nat) (occ : Nat) : Nat :=
  match pt with
  | 2 => knightAttacks s
  | 3 => bishopAttacks s occ
  | 4 => rookAttacks s occ
  | 5 => queenAttacks s occ
  | 6 => kingAttacks s
  | _ => 0

/-- Modelled from the spec: the direction from `a` towards `b` when they
share a file, rank or diagonal. -/
def dirBetween (a b : Nat) : Option (Int × Int) :=
  let df : Int := (fileOf b : Int) - (fileOf a : Int)
  let dr : Int := (rankOf b : Int) - (rankOf a : Int)
  if df = 0 ∧ dr = 0 then none
  else if df = 0 then some (0, dr.sign)
  else if dr = 0 then some (df.sign, 0)
  else if df.natAbs = dr.natAbs then some (df.sign, dr.sign)
  else none

/-- Modelled from the spec: `between_bb(a, b)`, the squares strictly
between two aligned squares plus `b` itself; just `b` when not aligned. -/
def betweenBB (a b : Nat) : Nat :=
  match dirBetween a b with
  | some d => rayGo (sqBB b) d.1 d.2 7 a 0
  | none => sqBB b

/-- Modelled from the spec: `line_bb(a, b)`, the full line through two
aligned squares (endpoints included); empty when not aligned. -/
def lineBB (a b : Nat) : Nat :=
  match dirBetween a b with
  | some d => rayGo 0 d.1 d.2 7 a 0 ||| rayGo 0 (-d.1) (-d.2) 7 a 0 ||| sqBB a
  | none => 0

/-- `aligned(a, b, c) = line_bb(a, b) & c`. -/
def aligned (a b c : Nat) : Bool := lineBB a b &&& sqBB c ≠ 0

/-- `make_piece(c, pt)`: piece codes 1..6 for White, 9..14 for Black. -/
def makePiece (c : Color) (pt : Nat) : Nat :=
  (if c = .white then 0 else 8) + pt

/-- `type_of(pc) = pc & 7`. -/
def typeOf (pc : Nat) : Nat := pc % 8

/-- `color_of(pc) = pc >> 3` (only meaningful for nonempty squares). -/
def colorOf (pc : Nat) : Color := if pc < 8 then .white else .black

/-- Modelled from the spec: the engine's standard middlegame piece values
(types.h is not in src/): pawn 126, knight 781, bishop 825, rook 1276,
queen 2538, zero for kings and the empty square. -/
def pieceValueMg (pc : Nat) : Int :=
  match typeOf pc with
  | 1 => 126
  | 2 => 781
  | 3 => 825
  | 4 => 1276
  | 5 => 2538
  | _ => 0

/-- `pawn_push(c)`: +8 for White, -8 for Black, as a signed offset. -/
def pawnPush (c : Color) : Int := if c = .white then 8 else -8

/-- The four move kinds encoded in a `Move`'s type bits. -/
inductive MoveType where
  | normal
  | promotion
  | enPassant
  | castling
deriving DecidableEq, Repr

/-- A move: origin, destination, special type and promotion piece type
(the 16-bit encoding of types.h unpacked into a record). -/
structure Move where
  fromSq : Nat
  toSq : Nat
  mtype : MoveType := .normal
  promo : Nat := 2
deriving DecidableEq, Repr

/-- The fixed Zobrist piece-square constants from Position::init(), row per piece code.
Rows absent from the source (piece codes 0, 7, 8, 15) are empty: C++ globals are zero-initialized. -/
def zpsqRow : Nat → List Nat
  | 1 => [
    591679071752537765, 11781298203991720739, 17774509420834274491, 93833316982319649,
    5077288827755375591, 12650468822090308278, 7282142511083249914, 10536503665313592279,
    4539792784031873725, 2841870292508388689, 15413206348252250872, 7678569077154129441,
    13346546310876667408, 18288271767696598454, 10369369943721775254, 18081987910875800766,
    5538285989180528017, 1561342000895978098, 344529452680813775, 12666574946949763448,
    11485456468243178719, 7930595158480463155, 14302725423041560508, 14331261293281981139,
    4456874005134181239, 2824504039224593559, 10380971965294849792, 15120440200421969569,
    2459658218254782268, 3478717432759217624, 3378985187684316967, 9696037458963191704,
    13098241107727776933, 16711523013166202616, 10079083771611825891, 14137347994420603547,
    4791805899784156187, 6078389034317276724, 5994547221653596060, 16213379374441749196,
    4600174966381648954, 2382793282151591793, 5441064086789571698, 13211067155709920737,
    8095577678192451481, 12870220845239618167, 18366225606586112739, 1482740430229529117,
    18398763828894394702, 12894175299039183743, 5973205243991449651, 16073805277627490771,
    11840382123049768615, 16782637305176790952, 16565939816889406374, 7611013259146743987,
    4325631834421711187, 7084652077183601842, 14113904950837697704, 6952439085241219742,
    11697893679396085013, 15932411745698688381, 333938476871428781, 10094356940478519713]
  | 2 => [
    8854028305631117351, 18264149368209609558, 18152850504025660547, 445125824226036916,
    7445032221575161576, 5887372625995221418, 12579614965563241976, 15542129933905340102,
    4278411582816540073, 7817987688731403418, 16765308846548980593, 15594655397588023405,
    11116801254932199266, 11592572287770353464, 10698558469286656858, 263236209937302172,
    15461982991340303336, 3043744698521235658, 1070442759222213040, 650534245804607543,
    5943000432800778858, 26206987068637543, 16737080395141468053, 13977415469856941557,
    1052117838564742180, 9424311196719389450, 12167498318705983564, 4301764225574437137,
    17360266336634281276, 13868884065264943813, 15952283905104982306, 4998386290424363477,
    4893239286087369377, 17573528852960048629, 2412201799238683587, 16517545668683925387,
    16978748896271686395, 8830712609912112615, 244676446090624528, 10801320743593590304,
    13531918303924845431, 10527125009130628070, 17495106538955645767, 14203433425689676251,
    13760149572603586785, 1273129856199637694, 3154213753511759364, 12760143787594064657,
    1600035040276021173, 5414819345072334853, 7201040945210650872, 11015789609492649674,
    7712150959425383900, 8543311100722720016, 13076185511676908731, 3922562784470822468,
    2780562387024492132, 6697120216501611455, 13480343126040452106, 12173667680050468927,
    3302171945877565923, 16568602182162993491, 14953223006496535120, 16457941142416543492]
  | 3 => [
    2945262940327718556, 3775538624233802005, 4292201895252289600, 16433809973923446677,
    1284774014851141252, 18314932087213148495, 8946796353798605717, 16445820069092145103,
    7588664147775519679, 12896594212779880816, 14935880823937687725, 13400879436137989525,
    13846969535995712591, 12484917729738156524, 17882592831712409952, 16637473249645425632,
    15098223454147433904, 17631249017957605294, 12582001597670293135, 17902661106057732664,
    10274060743048400565, 12005958760542442625, 6324932172735347303, 17192330553585486663,
    9422872207407330841, 3177237980255163711, 14998024116488875998, 705793604453777656,
    11327568552142987041, 7029368612848231507, 11062860980165499825, 2900628512702115887,
    308431256844078091, 752802454931337639, 5576583881995601144, 8733594096989903760,
    290737499942622970, 8992780576699235245, 10425616809589311900, 5493674620779310265,
    12589103349525344891, 14857852059215963628, 13495551423272463104, 6944056268429507318,
    3988842613368812515, 14815775969275954512, 17868612272134391879, 8436706119115607049,
    7555807622404432493, 9144495607954586305, 6794801016890317083, 6072558259768997948,
    10941535447546794938, 14043502401785556544, 8362621443508695308, 17736840905212253027,
    2733031211210449030, 4350365705834634871, 1100550212031776323, 17430963890314521917,
    7470064030368587841, 13387014036020469860, 7078824284187344392, 12312007608706932222]
  | 4 => [
    3826719064958106391, 17580452432494632735, 4372818848456885156, 20778095608392735,
    9517712183106565981, 16772576131911258204, 12158847832281029501, 18318866654963083744,
    14355784966049388499, 1442237715923966096, 16767620159370203923, 13501017873225644439,
    12414460951753850741, 1630390626826320339, 11056926288496765292, 17514919132679636196,
    6737125905271376420, 3156370395448333753, 7372374977020439436, 5277883516136612451,
    16544956564115640970, 14431129579433994133, 10776067565185448, 15235680854177679657,
    12767627681826077225, 1324675096273909386, 3456463189867507715, 9195964142578403484,
    10627443539470127577, 7083655917886846512, 14734414825071094346, 8833975264052769557,
    2965232458494052289, 12786367183060552144, 6364751811635930008, 12304694438192434386,
    4420057912710567321, 13121826629733594974, 3295424378969736960, 16543444358261923928,
    13665696745413941685, 3585618043384929225, 14758422515963078108, 5444185746065710993,
    6217807121864929894, 7617121805124236390, 2176332518208481987, 1435617355844826626,
    17897291909516933347, 17430612766366810879, 13845907184570465897, 3432307431600566936,
    2532253559171451888, 11643128737472459646, 13606171979107604790, 10012509558550373270,
    5587706015190365982, 18189230678861289336, 5637318834313874969, 4728172345191419793,
    13287099661014164329, 8475766932330124954, 2781312650135424674, 10552294945874175633]
  | 5 => [
    14116194119706301666, 908994258594572803, 3835251526534030662, 3902806174142003247,
    8404113168045990162, 10605456791970677788, 8371724936653327204, 10149265301602815302,
    10280163375965480302, 12878458563073396434, 1480273033205949154, 15420639285122262859,
    16040433549230388361, 10889445127567090568, 7154846977618541400, 15324267473561911299,
    9123044315927273855, 18178395620988860923, 13937825686985326355, 6208640256728026680,
    17803354189602776349, 8168466387959732965, 4747388335999020093, 8076893647775627477,
    135355862477779318, 13727020784074293322, 16471001867829363208, 3944848361583366045,
    6153835027004876065, 17541053953916494135, 830442639195732299, 5707759661195251524,
    16745928189385382169, 13853872449862111272, 10763276423780512808, 528748578239178413,
    1195366693239264477, 16072813688416096526, 9411878730995839744, 14250860229846220116,
    3391112600086567492, 11283764167692931512, 1672248607577385754, 2130286739811077583,
    18311727561747759139, 974583822133342724, 5061116103402273638, 3126855720952116346,
    578870949780164607, 3776778176701636327, 14213795876687685078, 5613780124034108946,
    6069741268072432820, 8893641350514130178, 15249957078178864452, 18092583129505773527,
    11393903435307203091, 8119660695860781220, 13766130452052543028, 7096579372531132405,
    7459026647266724422, 5897616920394564481, 4162427946331299898, 2527789185948800525]
  | 6 => [
    17290988795360054066, 5240905960030703813, 12532957579127022568, 7321214839249116978,
    17188130528816882357, 13649660060729335176, 7877670809777050873, 8603165736220767331,
    3731409983944574110, 14311591814980160037, 16719365103710912831, 15645061390881301878,
    15313601992567477463, 558437165307320475, 10107592147679710958, 217058993405149273,
    11583857652496458642, 12813267508475749642, 12801463184548517903, 10205205656182355892,
    12009517757124415757, 11711220569788417590, 601506575385147719, 2403800598476663693,
    3185273191806365666, 16311384682203900813, 2147738008043402447, 11784653004849107439,
    11363702615030984814, 4459820841160151625, 17238855191434604666, 16533107622905015899,
    12580437090734268666, 9002238121826321187, 7209727037264965188, 15210303941751662984,
    5957580827072516578, 16077971979351817631, 7451935491114626499, 14243752318712699139,
    12737894796843349185, 1351996896321498360, 4395539424431256646, 14636926406778905296,
    10637364485216545239, 4709900282812548306, 14703591130731831913, 1476367765688281237,
    4113914727206496161, 8066049843497142643, 7809561412546830570, 4879538739185105394,
    9498083046807871856, 17559505952950827343, 11763387757765891631, 10055035698587107604,
    12844734664424373030, 330991544207939447, 8508732305896661743, 11153570973223855023,
    10238055872248257461, 1773280948989896239, 8300833427522849187, 10832779467616436194]
  | 9 => [
    11781789245711860189, 2747882707407274161, 3724767368808293169, 10298180063630105197,
    10746438658164496957, 16037040440297371558, 17588125462232966688, 6880843334474042246,
    560415017990002212, 6626394159937994533, 2670333323665803600, 4280458366389177326,
    1467978672011198404, 7620133404071416883, 13350367343504972530, 10138430730509076413,
    6785953884329063615, 4006903721835701728, 17529175408771439641, 2257868868401674686,
    16350586259217027048, 12792669610269240489, 15445432911128260212, 3830919760132254685,
    17463139367032047470, 15002266175994648649, 17680514289072042202, 362761448860517629,
    2620716836644167551, 10876826577342073644, 14704635783604247913, 8370308497378149181,
    16902199073103511157, 4712050710770633961, 2335277171236964126, 15454330651988402294,
    6039398895644425870, 5330935207425949713, 6844204079868621004, 15018633515897982115,
    5869887878873962697, 9619421978703093664, 7065039212033014872, 14085021312833583897,
    17738639966636660046, 18274309123980813514, 16007640215959475868, 4326793000252505639,
    11694193434453531305, 15789397716808962025, 8672273831614123897, 6109915657282875177,
    6240221177136276484, 17650760467278016265, 13635783915766085055, 17178975703249397658,
    690100752037560272, 846594232046156050, 11437611220054444781, 1050411833588837386,
    10485589741397417446, 12844414679888429939, 6491358656106542835, 12575464921310399912]
  | 10 => [
    14923825269739949453, 18375002115249413557, 3423036550911737589, 15250861506191355802,
    15031961129285356212, 15435012606837965840, 6304673951675292305, 12785716655315370815,
    9808873325341612945, 9783992785966697331, 18138650430907468530, 18431297401347671031,
    18148129570815566817, 12696743950740820713, 1854845205476015706, 12865777516920439176,
    15636159047245426328, 17373407353156678628, 2495834645782650553, 11247757644603045972,
    17130748698210142189, 11422966446976074719, 1595016003613213710, 3899856913033553150,
    15470414105568996654, 2572459120480840982, 14288318049370965601, 4034656711994978492,
    3619462250265206907, 12564616267900212223, 6563888989859451823, 2454157599688795602,
    122761158351497116, 4118064480546384385, 13825342760651713002, 3757958894065091138,
    3348351562535718824, 11085064257829065607, 4791949565677098244, 16741859899153424134,
    13552228277894027114, 18043793947072687525, 18232133385309552782, 17162542170033385071,
    17966719644677930276, 4126374944389900134, 7694029693525104626, 7844796758498075948,
    15171322352384637386, 4901284706517591019, 11550611493505829690, 8591758722916550176,
    6614280899913466481, 15659292666557594854, 8334845918197067198, 14303347218899317731,
    18185681713739197231, 10010957749676186008, 6151588837035247399, 15955998980864570780,
    14725804664707294906, 9071111217904025772, 4268551186589045976, 3787505694838293655]
  | 11 => [
    3463765996898474975, 1419043948633899671, 4738255775972431200, 10880687006345860054,
    6083956890523873398, 15399367780949709721, 10077652868536637496, 4763774200646997281,
    2058719554631509711, 16245257579300202929, 12549234361408101229, 5132111825598353706,
    13210867931726967807, 8049587883156206974, 14208790774466773366, 15004789243215417478,
    2705161721287640173, 6606951690346399114, 9038858141657157738, 9864507686211087503,
    8174211780307618304, 16060351410629081351, 5484951598904056885, 12456759525904287919,
    8919252620379965524, 15501107657356591656, 3242949188225361282, 5926058172544675863,
    6405123151097452666, 172567736958909523, 17292315564005737229, 13464278685013338817,
    3686053955562449182, 8857017014241158725, 15421895718306499875, 3815913251318905694,
    3432648465599995302, 818320788389300537, 4071520112108071604, 13295466432639272442,
    2426572569594491679, 10076303268977391406, 8784192232334006419, 2997181738853009670,
    15770398685934330580, 13017264784195056557, 4330776497582490757, 10934498588458332802,
    10356579632341837397, 2098241031318749487, 14789448409803449028, 11251433970760721438,
    7224004101031043677, 15038935143876354117, 13215483265469582733, 1462298635979286935,
    5759284467508932139, 5761810302276021825, 1946852319481058342, 8779292626819401953,
    9980275774854520963, 9018156077605645253, 10175632970326281074, 17670251009423356428]
  | 12 => [
    2047473063754745880, 4129462703004022451, 10030514736718131075, 8457187454173219884,
    675824455430313366, 15722708499135010396, 1416150021210949828, 18340753630988628266,
    4279562020148953383, 7599717795808621650, 8493385059263161629, 5448373608430482181,
    7975000343659144004, 3661443877569162353, 17436434418308603210, 7723061412912586436,
    12478269109366344372, 5260527761162561230, 3664808336308943032, 12246522629121956498,
    11421384233946319246, 10711232448204740396, 394033332107778027, 1653867462011650260,
    10614247855083729040, 3511207051989217747, 14828688729293007936, 12730238737606105501,
    9131161340116597330, 10475424158865388660, 12216784836515690585, 12605719261947498045,
    55059904350528673, 5668017292185949458, 5318848626170854652, 5812165408168894719,
    12436591089168384586, 11456184110470635333, 17354703890556504985, 12819708191444916183,
    2051969874001439467, 9752086654524583546, 8598830537031500033, 10803717843971298140,
    17386254373003795027, 3490013643061567317, 14966160920336416174, 2716159408585464742,
    13704057180721116715, 6139827121406310950, 12045645008689575811, 5879666907986225363,
    18332108852121545326, 8302596541641486393, 3337300269606353125, 4641043901128821440,
    17552658021160699704, 15245517114959849830, 898774234328201642, 13458365488972458856,
    17617352963801145870, 12653043169047643133, 3946055118622982785, 78667567517654999]
  | 13 => [
    7496345100749090134, 11141138397664383499, 9990861652354760086, 6136051413974204120,
    14382251659553821084, 12222838175704680581, 9437743647758681312, 5321952072316248116,
    9510472571572253025, 13968738580144591953, 9048732621241245672, 7070992119077796289,
    7585987196905721881, 12797609451470009512, 13831169997283951441, 14062956797276305407,
    7195172102806297836, 13763135782447679404, 8729177333120200902, 8228513033455726756,
    5827889096510108059, 1541817158620711182, 18002525473269359251, 7210349805272776282,
    6760744891923215431, 1684012349959865632, 5422658641223860702, 5964630753289401637,
    16048931659747747714, 12995369105282084360, 2210225853011473806, 13310794355402477849,
    4356361331354780175, 10920940233470324174, 4480682637160025854, 11920920861864075275,
    17830720560385394644, 17667812763781863653, 8584251371203620679, 10083927648945854194,
    15175717840117055506, 3402388332801799152, 17983756367024412696, 13633521765968038314,
    18197623828188242686, 7159151014196207335, 6329323109608928752, 4596348075478973761,
    1929043772203993371, 2942782730029388844, 17616535832761962408, 14638746212880920282,
    235408037287298392, 15488773953079788133, 14511691540381881087, 4908241668947178463,
    8002325218109467205, 384694259305835297, 4413022859932656147, 16084510603130945976,
    7817184652260023923, 11521163704900182019, 10633473972031941012, 7028123206539359005]
  | 14 => [
    12370129909167185711, 18282545875249343957, 11571910781648655955, 12044362528788437371,
    15748959137105604538, 12433669315838447795, 3539341563356477798, 8229636981602574987,
    18267920850505015981, 18135187956959905864, 10122403804874825725, 8577640427585662579,
    16947872026033056961, 4498886674923994328, 5110446196942225801, 2443501881669395127,
    6915148508579620831, 9154422921438056207, 3578030806440286511, 15315801991440539300,
    7070866824836391168, 14817924832942381111, 3001446271118775643, 13000642695841600636,
    14370567463871457833, 11030064684553339453, 14239970918075645415, 9415971121016597759,
    6665243610733579451, 12729882327349519727, 127495542892799647, 6044073010763988256,
    13007064564721953048, 13888665226332397302, 13536486134713258398, 16493663995181111698,
    2130152061385863810, 5369940202574713097, 4976109024626592507, 17662718886951473514,
    10194604604769366768, 9434649875492567077, 9275344374679790988, 13950395516943844512,
    4634019286100624619, 17524913661501655732, 12758868016771465513, 3127147764315865797,
    3960938717909563730, 14869830638616427590, 305185646789997459, 4139658351799906696,
    272667046354598132, 15621274402096728762, 16483498129229512495, 12953368655171389128,
    10678035399177741929, 18049652274331575310, 7975081034372805163, 10522098076497821829,
    12606359703294662790, 13924857104548874958, 6566773282407180921, 3452471826952569846]
  | _ => []

/-- Zobrist::psq lookup; zero for unset entries (zero-initialized globals). -/
def Zpsq (pc s : Nat) : Nat := (zpsqRow pc).getD s 0

/-- Zobrist::enpassant file keys from Position::init(). -/
def ZenpassantList : List Nat := [
    9031641776876329352,
    12228382040141709029,
    2494223668561036951,
    7849557628814744642,
    16000570245257669890,
    16614404541835922253,
    17787301719840479309,
    6371708097697762807]

def Zenpassant (f : Nat) : Nat := ZenpassantList.getD f 0

/-- Zobrist::castling keys from Position::init(); index 0 is zero (zero-initialized). -/
def ZcastlingList : List Nat := [0,
    7487338029351702425,
    10138645747811604478,
    16959407016388712551,
    16332212992845378228,
    9606164174486469933,
    7931993123235079498,
    719529192282958547,
    6795873897769436611,
    4154453049008294490,
    15203167020455580221,
    13048090984296504740,
    13612242447579281271,
    15780674830245624046,
    3484610688987504777,
    6319549394931232528]

def Zcastling (cr : Nat) : Nat := ZcastlingList.getD cr 0

/-- Zobrist::side key from Position::init(). -/
def Zside : Nat := 4906379431808431525

/-- Zobrist::noPawns key from Position::init(). -/
def ZnoPawns : Nat := 895963052000028445


/-- One per-ply state record (struct StateInfo of position.h, modelled from
the spec's data-model section since position.h is not in src/).  The
`previous` pointer is represented by the containing Position's state list.
`epSquare` is `none` for SQ_NONE, `capturedPiece` 0 for NO_PIECE. -/
structure StateInfo where
  pawnKey : Nat := 0
  materialKey : Nat := 0
  nonPawnMaterialW : Int := 0
  nonPawnMaterialB : Int := 0
  castlingRights : Nat := 0
  rule50 : Nat := 0
  pliesFromNull : Nat := 0
  epSquare : Option Nat := none
  key : Nat := 0
  checkersBB : Nat := 0
  blockersForKingW : Nat := 0
  blockersForKingB : Nat := 0
  pinnersW : Nat := 0
  pinnersB : Nat := 0
  checkSquares : Nat → Nat := fun _ => 0
  capturedPiece : Nat := 0
  repetition : Int := 0

def StateInfo.blockersForKing (st : StateInfo) (c : Color) : Nat :=
  match c with | .white => st.blockersForKingW | .black => st.blockersForKingB

def StateInfo.pinners (st : StateInfo) (c : Color) : Nat :=
  match c with | .white => st.pinnersW | .black => st.pinnersB

def StateInfo.nonPawnMaterial (st : StateInfo) (c : Color) : Int :=
  match c with | .white => st.nonPawnMaterialW | .black => st.nonPawnMaterialB

/-- The central Position entity: board array, redundant bitboards, piece
counts, castling bookkeeping, side to move and the chain of StateInfo
records (`st` is the current record, `prevStates` the backward chain). -/
structure Position where
  board : Nat → Nat
  byTypeBB : Nat → Nat
  byColorBB : Color → Nat
  pieceCount : Nat → Nat
  castlingRightsMask : Nat → Nat
  castlingRookSquare : Nat → Nat
  castlingPath : Nat → Nat
  sideToMove : Color
  gamePly : Nat
  chess960 : Bool
  st : StateInfo
  prevStates : List StateInfo

namespace Position

/-- `pieces()`: all occupied squares (byTypeBB[ALL_PIECES]). -/
def pieces (p : Position) : Nat := p.byTypeBB 0

/-- `pieces(c)`. -/
def piecesC (p : Position) (c : Color) : Nat := p.byColorBB c

/-- `pieces(pt)`. -/
def piecesPt (p : Position) (t : Nat) : Nat := p.byTypeBB t

/-- `pieces(pt1, pt2)`. -/
def piecesPt2 (p : Position) (t1 t2 : Nat) : Nat := p.byTypeBB t1 ||| p.byTypeBB t2

/-- `pieces(c, pt)`. -/
def piecesCPt (p : Position) (c : Color) (t : Nat) : Nat := p.byColorBB c &&& p.byTypeBB t

/-- `pieces(c, pt1, pt2)`. -/
def piecesCPt2 (p : Position) (c : Color) (t1 t2 : Nat) : Nat :=
  p.byColorBB c &&& (p.byTypeBB t1 ||| p.byTypeBB t2)

/-- `square<KING>(c)`: the (unique) king square of color c. -/
def kingSq (p : Position) (c : Color) : Nat := lsbSq (p.piecesCPt c 6)

/-- Modelled from the spec: Position::put_piece of position.h (not in
src/): board write, or-in of the square into the ALL/type/color bitboards,
and the two per-piece count increments. -/
def putPiece (p : Position) (pc s : Nat) : Position :=
  { p with
    board := Function.update p.board s pc
    byTypeBB := fun u =>
      ((if u = 0 then p.byTypeBB u ||| sqBB s else p.byTypeBB u))
        ||| (if u = typeOf pc then sqBB s else 0)
    byColorBB := fun c => if c = colorOf pc then p.byColorBB c ||| sqBB s else p.byColorBB c
    pieceCount := fun q =>
      p.pieceCount q + (if q = pc then 1 else 0)
        + (if q = makePiece (colorOf pc) 0 then 1 else 0) }

/-- Modelled from the spec: Position::remove_piece of position.h (not in
src/): xor-out of the square from the ALL/type/color bitboards, board
clear, and the two per-piece count decrements. -/
def removePiece (p : Position) (s : Nat) : Position :=
  let pc := p.board s
  { p with
    board := Function.update p.board s 0
    byTypeBB := fun u =>
      (if u = 0 then p.byTypeBB u ^^^ sqBB s else p.byTypeBB u)
        ^^^ (if u = typeOf pc then sqBB s else 0)
    byColorBB := fun c => if c = colorOf pc then p.byColorBB c ^^^ sqBB s else p.byColorBB c
    pieceCount := fun q =>
      p.pieceCount q - (if q = pc then 1 else 0)
        - (if q = makePiece (colorOf pc) 0 then 1 else 0) }

/-- Modelled from the spec: Position::move_piece of position.h (not in
src/): xor of `from | to` into the ALL/type/color bitboards and the two
board writes. -/
def movePiece (p : Position) (f t : Nat) : Position :=
  let pc := p.board f
  let fromTo := sqBB f ||| sqBB t
  { p with
    board := Function.update (Function.update p.board f 0) t pc
    byTypeBB := fun u =>
      (if u = 0 then p.byTypeBB u ^^^ fromTo else p.byTypeBB u)
        ^^^ (if u = typeOf pc then fromTo else 0)
    byColorBB := fun c => if c = colorOf pc then p.byColorBB c ^^^ fromTo else p.byColorBB c }

/-- Position::set_castling_right(c, rfrom): derive the castling side from
the relative king/rook squares, record the rights bitmask keyed by both
origin squares, and precompute the castling path.  CastlingRights codes:
WHITE_OO=1, WHITE_OOO=2, BLACK_OO=4, BLACK_OOO=8; KING_SIDE=5,
QUEEN_SIDE=10, WHITE_CASTLING=3, BLACK_CASTLING=12. -/
def setCastlingRight (p : Position) (c : Color) (rfrom : Nat) : Position :=
  let kfrom := p.kingSq c
  let cr := (if c = .white then 3 else 12) &&& (if kfrom < rfrom then 5 else 10)
  let kto := relativeSquare c (if cr &&& 5 ≠ 0 then 6 else 2)
  let rto := relativeSquare c (if cr &&& 5 ≠ 0 then 5 else 3)
  { p with
    st := { p.st with castlingRights := p.st.castlingRights ||| cr }
    castlingRightsMask := fun s =>
      (if s = kfrom then p.castlingRightsMask s ||| cr else p.castlingRightsMask s)
        ||| (if s = rfrom then cr else 0)
    castlingRookSquare := Function.update p.castlingRookSquare cr rfrom
    castlingPath := Function.update p.castlingPath cr
      ((betweenBB rfrom rto ||| betweenBB kfrom kto) &&& bbNot (sqBB kfrom ||| sqBB rfrom)) }

/-- Position::attackers_to(s, occupied). -/
def attackersTo (p : Position) (s : Nat) (occupied : Nat) : Nat :=
  (pawnAttacks .black s &&& p.piecesCPt .white 1)
    ||| (pawnAttacks .white s &&& p.piecesCPt .black 1)
    ||| (knightAttacks s &&& p.piecesPt 2)
    ||| (rookAttacks s occupied &&& p.piecesPt2 4 5)
    ||| (bishopAttacks s occupied &&& p.piecesPt2 3 5)
    ||| (kingAttacks s &&& p.piecesPt 6)

/-- `attackers_to(s)` with the full occupancy. -/
def attackersToDefault (p : Position) (s : Nat) : Nat := p.attackersTo s p.pieces

/-- The body of Position::slider_blockers' sniper loop, iterating pop_lsb
over `snipers` with fuel 64; accumulates (blockers, pinners). -/
def sliderBlockersLoop (p : Position) (s : Nat) (occupancy : Nat) :
    Nat → Nat → Nat × Nat → Nat × Nat
  | 0, _, acc => acc
  | fuel + 1, snipers, acc =>
    if snipers = 0 then acc
    else
      let sniperSq := lsbSq snipers
      let snipers' := snipers &&& (snipers - 1)
      let b := betweenBB s sniperSq &&& occupancy
      let acc' :=
        if b ≠ 0 ∧ ¬ moreThanOne b then
          (acc.1 ||| b,
           if b &&& p.piecesC (colorOf (p.board s)) ≠ 0 then acc.2 ||| sqBB sniperSq else acc.2)
        else acc
      sliderBlockersLoop p s occupancy fuel snipers' acc'

/-- Position::slider_blockers(sliders, s, pinners): returns the pair
(blockers, pinners). -/
def sliderBlockers (p : Position) (sliders : Nat) (s : Nat) : Nat × Nat :=
  let snipers := ((rookAttacks s 0 &&& p.piecesPt2 5 4)
    ||| (bishopAttacks s 0 &&& p.piecesPt2 5 3)) &&& sliders
  let occupancy := p.pieces ^^^ snipers
  sliderBlockersLoop p s occupancy 64 snipers (0, 0)

/-- Position::set_check_info(): recompute blockers/pinners for both kings
and the check squares for the side not to move, leaving the other fields
of the current state record unchanged. -/
def setCheckInfo (p : Position) : StateInfo :=
  let bw := p.sliderBlockers (p.piecesC .black) (p.kingSq .white)
  let bb := p.sliderBlockers (p.piecesC .white) (p.kingSq .black)
  let ksq := p.kingSq p.sideToMove.flip
  let csB := bishopAttacks ksq p.pieces
  let csR := rookAttacks ksq p.pieces
  { p.st with
    blockersForKingW := bw.1
    pinnersB := bw.2
    blockersForKingB := bb.1
    pinnersW := bb.2
    checkSquares := fun t =>
      if t = 1 then pawnAttacks p.sideToMove.flip ksq
      else if t = 2 then knightAttacks ksq
      else if t = 3 then csB
      else if t = 4 then csR
      else if t = 5 then csB ||| csR
      else if t = 6 then 0
      else p.st.checkSquares t }

/-- The piece loop of Position::set_state(): the pop_lsb iteration over
`pieces()` visits set bits in ascending square order, embedded as a fold
over squares 0..63 filtered by the occupancy bitboard.  Accumulates
(key, pawnKey, nonPawnMaterial White, nonPawnMaterial Black). -/
def setStatePieceLoop (p : Position) : Nat × Nat × Int × Int :=
  (List.range 64).foldl
    (fun acc s =>
      if p.pieces.testBit s then
        let pc := p.board s
        let acc1 := (acc.1 ^^^ Zpsq pc s, acc.2)
        if typeOf pc = 1 then
          (acc1.1, acc1.2.1 ^^^ Zpsq pc s, acc1.2.2)
        else if typeOf pc ≠ 6 then
          if colorOf pc = .white then
            (acc1.1, acc1.2.1, acc1.2.2.1 + pieceValueMg pc, acc1.2.2.2)
          else
            (acc1.1, acc1.2.1, acc1.2.2.1, acc1.2.2.2 + pieceValueMg pc)
        else acc1
      else acc)
    (0, ZnoPawns, 0, 0)

/-- The material-key loop of Position::set_state(). -/
def setStateMaterialKey (p : Position) : Nat :=
  [1, 2, 3, 4, 5, 6, 9, 10, 11, 12, 13, 14].foldl
    (fun mk pc =>
      (List.range (p.pieceCount pc)).foldl (fun mk2 cnt => mk2 ^^^ Zpsq pc cnt) mk)
    0

/-- Position::set_state(): compute the hash keys, material totals,
checkers and check info of the current state from scratch. -/
def setState (p : Position) : StateInfo :=
  let loop := p.setStatePieceLoop
  let k0 := loop.1
  let k1 := match p.st.epSquare with
    | some ep => k0 ^^^ Zenpassant (fileOf ep)
    | none => k0
  let k2 := if p.sideToMove = .black then k1 ^^^ Zside else k1
  let k3 := k2 ^^^ Zcastling p.st.castlingRights
  let stChk := { p.st with
    checkersBB := p.attackersToDefault (p.kingSq p.sideToMove) &&& p.piecesC p.sideToMove.flip }
  let stCi := setCheckInfo { p with st := stChk }
  { stCi with
    key := k3
    pawnKey := loop.2.1
    materialKey := p.setStateMaterialKey
    nonPawnMaterialW := loop.2.2.1
    nonPawnMaterialB := loop.2.2.2 }

/-- The repetition-detection walk at the end of Position::do_move: visit
the backward state chain at distances i = 4, 6, ... up to `endv`; `chain`
lists the records from the new state (index 0) backwards, so `chain.get? i`
is the state i plies earlier.  Walking past the recorded history (a wild
pointer chase in the source) yields 0; the claims carry a chain-length
hypothesis instead. -/
def repLoop (k : Nat) (chain : List StateInfo) (endv : Nat) (i : Nat) : Int :=
  if i ≤ endv then
    match chain.get? i with
    | some stp =>
      if stp.key = k then (if stp.repetition ≠ 0 then -(i : Int) else (i : Int))
      else repLoop k chain endv (i + 2)
    | none => 0
  else 0
termination_by endv + 1 - i
decreasing_by omega

/-- The repetition calculation at the end of Position::do_move: `stCi` is
the new state (before its repetition field is set), `rest` the backward
chain of earlier states; the walk bound is min(rule50, pliesFromNull) and
the loop starts at distance 4. -/
def computeRepetition (stCi : StateInfo) (rest : List StateInfo) : Int :=
  let endv := min stCi.rule50 stCi.pliesFromNull
  let chain := stCi :: rest
  if 4 ≤ endv then repLoop stCi.key chain endv 4 else 0

/-- Position::do_castling<Do>: compute the king/rook target squares and
relocate both pieces in an overlap-safe order; returns the updated
position together with (kto, rfrom, rto). -/
def doCastling (p : Position) (doIt : Bool) (us : Color) (f t : Nat) :
    Position × Nat × Nat × Nat :=
  let kingSide := f < t
  let rfrom := t
  let rto := relativeSquare us (if kingSide then 5 else 3)
  let kto := relativeSquare us (if kingSide then 6 else 2)
  let p1 := p.removePiece (if doIt then f else kto)
  let p2 := p1.removePiece (if doIt then rfrom else rto)
  let b3 := Function.update (Function.update p2.board (if doIt then f else kto) 0)
    (if doIt then rfrom else rto) 0
  let p3 := { p2 with board := b3 }
  let p4 := p3.putPiece (makePiece us 6) (if doIt then kto else f)
  let p5 := p4.putPiece (makePiece us 4) (if doIt then rto else rfrom)
  (p5, kto, rfrom, rto)

/-- Stage values of do_move's piece placement, named so the roundtrip
proofs can address each mutation separately; doMove composes exactly
these stages.  `moveT1` is the value the by-reference `to` argument has
after the castling branch (the king's destination for castling). -/
def moveT1 (p : Position) (m : Move) : Nat :=
  if m.mtype = .castling then (p.doCastling true p.sideToMove m.fromSq m.toSq).2.1
  else m.toSq

/-- The `captured` piece do_move resolves (zero after the castling branch
clears it; the offset en-passant pawn otherwise). -/
def moveCaptured (p : Position) (m : Move) : Nat :=
  if m.mtype = .castling then 0
  else if m.mtype = .enPassant then makePiece p.sideToMove.flip 1
  else p.board m.toSq

/-- The capture square, adjusted for en passant. -/
def moveCapSq (p : Position) (m : Move) : Nat :=
  if m.mtype = .enPassant ∧ typeOf (moveCaptured p m) = 1
  then ((moveT1 p m : Int) - pawnPush p.sideToMove).toNat else moveT1 p m

/-- Board state after the castling relocation (stage 1 of do_move). -/
def doMoveP1 (p : Position) (m : Move) : Position :=
  if m.mtype = .castling then (p.doCastling true p.sideToMove m.fromSq m.toSq).1 else p

/-- Board state after the capture removal (stage 2 of do_move). -/
def doMoveP2 (p : Position) (m : Move) : Position :=
  if moveCaptured p m ≠ 0 then (doMoveP1 p m).removePiece (moveCapSq p m) else doMoveP1 p m

/-- Board state after the piece relocation (stage 3 of do_move). -/
def doMoveP3 (p : Position) (m : Move) : Position :=
  if m.mtype ≠ .castling then (doMoveP2 p m).movePiece m.fromSq (moveT1 p m)
  else doMoveP2 p m

/-- The prospective en-passant square behind a double push. -/
def moveEpNew (p : Position) (m : Move) : Nat :=
  ((moveT1 p m : Int) - pawnPush p.sideToMove).toNat

/-- The double-push test of do_move's pawn block: destination xor origin
is 16 and an enemy pawn attacks the crossed square. -/
def moveIsDP (p : Position) (m : Move) : Prop :=
  (moveT1 p m ^^^ m.fromSq) = 16 ∧
    pawnAttacks p.sideToMove (moveEpNew p m)
      &&& (doMoveP3 p m).piecesCPt p.sideToMove.flip 1 ≠ 0

instance (p : Position) (m : Move) : Decidable (moveIsDP p m) := by
  unfold moveIsDP
  infer_instance

/-- Board state after the promotion substitution (stage 4 of do_move,
the final piece placement). -/
def doMoveP4 (p : Position) (m : Move) : Position :=
  if typeOf (p.board m.fromSq) = 1 ∧ ¬ moveIsDP p m ∧ m.mtype = .promotion
  then ((doMoveP3 p m).removePiece (moveT1 p m)).putPiece
    (makePiece p.sideToMove m.promo) (moveT1 p m)
  else doMoveP3 p m

/-- Position::do_move(m, newSt, givesCheck): the central transition,
following the source's mutation sequence step by step.  The new state
record is pushed on the state chain; fields of StateInfo laid out before
`key` are copied from the old record (the memcpy), the rest are assigned
below exactly where the source assigns them.  The board mutations are the
doMoveP1..doMoveP4 stages above. -/
def doMove (p : Position) (m : Move) (givesCheck : Bool) : Position :=
  let us := p.sideToMove
  let them := us.flip
  let f := m.fromSq
  let t := m.toSq
  let pc := p.board f
  let k0 := p.st.key ^^^ Zside
  let st0 : StateInfo :=
    { p.st with
      rule50 := p.st.rule50 + 1
      pliesFromNull := p.st.pliesFromNull + 1 }
  let isCast := m.mtype = .castling
  let castRes := p.doCastling true us f t
  let k1 := if isCast then
      k0 ^^^ Zpsq (p.board t) castRes.2.2.1 ^^^ Zpsq (p.board t) castRes.2.2.2
    else k0
  let captured := moveCaptured p m
  -- do_castling takes `to` by reference and rewrites it to the king's
  -- destination square; t1 is the value of `to` from here on
  let t1 := moveT1 p m
  let capsq := moveCapSq p m
  let stA : StateInfo :=
    if captured ≠ 0 then
      if typeOf captured = 1 then
        { st0 with pawnKey := st0.pawnKey ^^^ Zpsq captured capsq }
      else if them = .white then
        { st0 with nonPawnMaterialW := st0.nonPawnMaterialW - pieceValueMg captured }
      else
        { st0 with nonPawnMaterialB := st0.nonPawnMaterialB - pieceValueMg captured }
    else st0
  let p2 := doMoveP2 p m
  let k2 := if captured ≠ 0 then k1 ^^^ Zpsq captured capsq else k1
  let st2 : StateInfo :=
    if captured ≠ 0 then
      { stA with
        materialKey := stA.materialKey ^^^ Zpsq captured (p2.pieceCount captured)
        rule50 := 0 }
    else stA
  let k3 := k2 ^^^ Zpsq pc f ^^^ Zpsq pc t1
  let k4 := match st2.epSquare with
    | some ep => k3 ^^^ Zenpassant (fileOf ep)
    | none => k3
  let st4 : StateInfo := { st2 with epSquare := none }
  let maskFT := p.castlingRightsMask f ||| p.castlingRightsMask t1
  let rightsChange := st4.castlingRights ≠ 0 ∧ maskFT ≠ 0
  let newRights := st4.castlingRights &&& bbNot maskFT
  let k5 := if rightsChange then
      k4 ^^^ Zcastling st4.castlingRights ^^^ Zcastling newRights
    else k4
  let st5 := if rightsChange then { st4 with castlingRights := newRights } else st4
  let epsqNew := moveEpNew p m
  let isDP := moveIsDP p m
  let isPromo := m.mtype = .promotion
  let promo := makePiece us m.promo
  let p4 := doMoveP4 p m
  let k6 :=
    if typeOf pc = 1 then
      if isDP then k5 ^^^ Zenpassant (fileOf epsqNew)
      else if isPromo then k5 ^^^ Zpsq pc t1 ^^^ Zpsq promo t1
      else k5
    else k5
  let st6a := if typeOf pc = 1 ∧ isDP then { st5 with epSquare := some epsqNew } else st5
  let st6b :=
    if typeOf pc = 1 ∧ ¬ isDP ∧ isPromo then
      let st' := { st6a with
        pawnKey := st6a.pawnKey ^^^ Zpsq pc t1
        materialKey := st6a.materialKey
          ^^^ Zpsq promo (p4.pieceCount promo - 1) ^^^ Zpsq pc (p4.pieceCount pc) }
      if us = .white then
        { st' with nonPawnMaterialW := st'.nonPawnMaterialW + pieceValueMg promo }
      else
        { st' with nonPawnMaterialB := st'.nonPawnMaterialB + pieceValueMg promo }
    else st6a
  let st6 :=
    if typeOf pc = 1 then
      { st6b with pawnKey := st6b.pawnKey ^^^ Zpsq pc f ^^^ Zpsq pc t1, rule50 := 0 }
    else st6b
  let stFin0 := { st6 with capturedPiece := captured, key := k6 }
  let pMid : Position := { p4 with st := stFin0, prevStates := p.st :: p.prevStates, gamePly := p.gamePly + 1 }
  let checkers := if givesCheck then
      pMid.attackersToDefault (pMid.kingSq them) &&& pMid.piecesC us else 0
  let pMid2 : Position :=
    { pMid with st := { stFin0 with checkersBB := checkers }, sideToMove := them }
  let stCi := setCheckInfo pMid2
  { pMid2 with st := { stCi with repetition := computeRepetition stCi (p.st :: p.prevStates) } }

/-- Stage 1 of undo_move's piece placement: restore a promoted pawn. -/
def undoMoveP1 (p : Position) (m : Move) : Position :=
  if m.mtype = .promotion then
    (p.removePiece m.toSq).putPiece (makePiece p.sideToMove.flip 1) m.toSq
  else p

/-- Stage 2 of undo_move's piece placement: reverse the castling or move
the piece back and restore any captured piece. -/
def undoMoveP2 (p : Position) (m : Move) : Position :=
  if m.mtype = .castling then
    ((undoMoveP1 p m).doCastling false p.sideToMove.flip m.fromSq m.toSq).1
  else
    let pA := (undoMoveP1 p m).movePiece m.toSq m.fromSq
    if p.st.capturedPiece ≠ 0 then
      pA.putPiece p.st.capturedPiece
        (if m.mtype = .enPassant
          then ((m.toSq : Int) - pawnPush p.sideToMove.flip).toNat else m.toSq)
    else pA

/-- Position::undo_move(m): the exact inverse of do_move; restores the
board via the undoMoveP1/undoMoveP2 stages and pops the state chain. -/
def undoMove (p : Position) (m : Move) : Position :=
  { undoMoveP2 p m with
    sideToMove := p.sideToMove.flip
    st := p.prevStates.headD {}
    prevStates := p.prevStates.tail
    gamePly := p.gamePly - 1 }

/-- Position::do_null_move(newSt): flip the side to move without board
mutation; the whole StateInfo is copied, then the en-passant key
contribution is removed, pliesFromNull reset, the side key applied, and
the check info recomputed. -/
def doNullMove (p : Position) : Position :=
  let st1 := p.st
  let st2 := match st1.epSquare with
    | some ep => { st1 with epSquare := none, key := st1.key ^^^ Zenpassant (fileOf ep) }
    | none => st1
  let st3 := { st2 with pliesFromNull := 0, key := st2.key ^^^ Zside }
  let p1 : Position := { p with sideToMove := p.sideToMove.flip, st := st3, prevStates := p.st :: p.prevStates }
  { p1 with st := setCheckInfo p1 }

/-- Position::undo_null_move(): pop the state chain and flip the side. -/
def undoNullMove (p : Position) : Position :=
  { p with st := p.prevStates.headD {}, prevStates := p.prevStates.tail, sideToMove := p.sideToMove.flip }

/-- The attacked-squares walk of the castling branch of Position::legal:
from the king's target square back towards (exclusive) the origin. -/
def castleWalk (p : Position) (us : Color) (f : Nat) (step : Int) :
    Nat → Nat → Bool
  | 0, _ => true
  | fuel + 1, s =>
    if s = f then true
    else if p.attackersToDefault s &&& p.piecesC us.flip ≠ 0 then false
    else castleWalk p us f step fuel ((s : Int) + step).toNat

/-- Position::legal(m): full legality test for a pseudo-legal move. -/
def legal (p : Position) (m : Move) : Bool :=
  let us := p.sideToMove
  let f := m.fromSq
  let t := m.toSq
  if m.mtype = .enPassant then
    let ksq := p.kingSq us
    let capsq := ((t : Int) - pawnPush us).toNat
    let occupied := (p.pieces ^^^ sqBB f ^^^ sqBB capsq) ||| sqBB t
    (rookAttacks ksq occupied &&& p.piecesCPt2 us.flip 5 4 == 0)
      && (bishopAttacks ksq occupied &&& p.piecesCPt2 us.flip 5 3 == 0)
  else if m.mtype = .castling then
    let t' := relativeSquare us (if f < t then 6 else 2)
    let step : Int := if f < t then -1 else 1
    castleWalk p us f step 8 t'
      && (!p.chess960 || (p.st.blockersForKing us &&& sqBB t == 0))
  else if typeOf (p.board f) = 6 then
    p.attackersTo t (p.pieces ^^^ sqBB f) &&& p.piecesC us.flip == 0
  else
    (p.st.blockersForKing us &&& sqBB f == 0) || aligned f t (p.kingSq us)

/-- The swap loop of Position::see_ge, fuel-bounded (at most 32 pieces can
be removed, so fuel 33 covers every reachable exchange). -/
def seeLoop (p : Position) (t : Nat) :
    Nat → Color → Nat → Nat → Int → Nat → Bool
  | 0, _, _, _, _, res => res ≠ 0
  | fuel + 1, stm0, occ0, att0, swap0, res0 =>
    let stm := stm0.flip
    let att1 := att0 &&& occ0
    let stmAtt0 := att1 &&& p.piecesC stm
    if stmAtt0 = 0 then res0 ≠ 0
    else
      let stmAtt := if p.st.pinners stm.flip &&& occ0 ≠ 0
        then stmAtt0 &&& bbNot (p.st.blockersForKing stm) else stmAtt0
      if stmAtt = 0 then res0 ≠ 0
      else
        let res := res0 ^^^ 1
        if stmAtt &&& p.piecesPt 1 ≠ 0 then
          let bb := stmAtt &&& p.piecesPt 1
          let occ := occ0 ^^^ lssb bb
          let swap := pieceValueMg 1 - swap0
          if swap < (res : Int) then res ≠ 0
          else
            let att := att1 ||| (bishopAttacks t occ &&& p.piecesPt2 3 5)
            seeLoop p t fuel stm occ att swap res
        else if stmAtt &&& p.piecesPt 2 ≠ 0 then
          let bb := stmAtt &&& p.piecesPt 2
          let occ := occ0 ^^^ lssb bb
          let swap := pieceValueMg 2 - swap0
          if swap < (res : Int) then res ≠ 0
          else seeLoop p t fuel stm occ att1 swap res
        else if stmAtt &&& p.piecesPt 3 ≠ 0 then
          let bb := stmAtt &&& p.piecesPt 3
          let occ := occ0 ^^^ lssb bb
          let swap := pieceValueMg 3 - swap0
          if swap < (res : Int) then res ≠ 0
          else
            let att := att1 ||| (bishopAttacks t occ &&& p.piecesPt2 3 5)
            seeLoop p t fuel stm occ att swap res
        else if stmAtt &&& p.piecesPt 4 ≠ 0 then
          let bb := stmAtt &&& p.piecesPt 4
          let occ := occ0 ^^^ lssb bb
          let swap := pieceValueMg 4 - swap0
          if swap < (res : Int) then res ≠ 0
          else
            let att := att1 ||| (rookAttacks t occ &&& p.piecesPt2 4 5)
            seeLoop p t fuel stm occ att swap res
        else if stmAtt &&& p.piecesPt 5 ≠ 0 then
          let bb := stmAtt &&& p.piecesPt 5
          let occ := occ0 ^^^ lssb bb
          let swap := pieceValueMg 5 - swap0
          if swap < (res : Int) then res ≠ 0
          else
            let att := att1 ||| ((bishopAttacks t occ &&& p.piecesPt2 3 5)
              ||| (rookAttacks t occ &&& p.piecesPt2 4 5))
            seeLoop p t fuel stm occ att swap res
        else
          if att1 &&& bbNot (p.piecesC stm) ≠ 0 then (res ^^^ 1) ≠ 0 else res ≠ 0

/-- Position::see_ge(m, threshold): static exchange evaluation test. -/
def seeGe (p : Position) (m : Move) (threshold : Int) : Bool :=
  if m.mtype ≠ .normal then decide ((0 : Int) ≥ threshold)
  else
    let f := m.fromSq
    let t := m.toSq
    let swap0 := pieceValueMg (p.board t) - threshold
    if swap0 < 0 then false
    else
      let swap1 := pieceValueMg (p.board f) - swap0
      if swap1 ≤ 0 then true
      else
        let occ := p.pieces ^^^ sqBB f ^^^ sqBB t
        seeLoop p t 33 p.sideToMove occ (p.attackersTo t occ) swap1 1

/-- Position::is_draw(ply).  `MoveList<LEGAL>(*this).size()` comes from
the move generator, which is not part of src/; it is passed as the
abstract `legalMoveCount` argument (modelled from the spec, which treats
the move generator as an external collaborator). -/
def isDraw (p : Position) (legalMoveCount : Nat) (ply : Int) : Bool :=
  if p.st.rule50 > 99 ∧ (p.st.checkersBB = 0 ∨ legalMoveCount ≠ 0) then true
  else decide (p.st.repetition ≠ 0 ∧ p.st.repetition < ply)

end Position

/-- First cuckoo hash of Position::init: `H1(h) = h & 0x1fff`. -/
def H1 (h : Nat) : Nat := h &&& 0x1fff

/-- Second cuckoo hash of Position::init: `H2(h) = (h >> 16) & 0x1fff`. -/
def H2 (h : Nat) : Nat := (h >>> 16) &&& 0x1fff

/-- The two parallel 8192-entry cuckoo arrays (`cuckoo`, `cuckooMove`);
`none` models the MOVE_NONE empty marker. -/
structure CuckooTables where
  keys : Nat → Nat
  moves : Nat → Option Move

/-- The zeroed tables before the construction. -/
def emptyCuckoo : CuckooTables := { keys := fun _ => 0, moves := fun _ => none }

/-- The eviction loop of the cuckoo insertion in Position::init: place the
in-hand (key, move) pair at slot i, pushing any victim to its alternative
slot, until an empty slot is found; fuel bounds the eviction chase. -/
def cuckooInsertLoop : Nat → CuckooTables → Nat → Move → Nat → CuckooTables
  | 0, tabs, _, _, _ => tabs
  | fuel + 1, tabs, key, mv, i =>
    let keyV := tabs.keys i
    let mvV := tabs.moves i
    let tabs' : CuckooTables :=
      { keys := Function.update tabs.keys i key
        moves := Function.update tabs.moves i (some mv) }
    match mvV with
    | none => tabs'
    | some mv' =>
      let i' := if i = H1 keyV then H2 keyV else H1 keyV
      cuckooInsertLoop fuel tabs' keyV mv' i'

/-- The hash key of a reversible (piece, s1, s2) move in the cuckoo
construction. -/
def cuckooKey (pc s1 s2 : Nat) : Nat := Zpsq pc s1 ^^^ Zpsq pc s2 ^^^ Zside

/-- The twelve piece identities of the source's `Pieces` array. -/
def piecesList : List Nat := [1, 2, 3, 4, 5, 6, 9, 10, 11, 12, 13, 14]

/-- The insertion condition of Position::init's cuckoo loops: a non-pawn
piece whose empty-board attack set from s1 contains s2. -/
def cuckooCond (pc s1 s2 : Nat) : Bool :=
  typeOf pc ≠ 1 && (attacksBBPt (typeOf pc) s1 0).testBit s2

/-- The number of pairs s2 > s1 inside the empty-board attack set of a
piece of type `pt` on s1: the insertions Position::init performs for one
(piece, s1). -/
def cuckooPairCount (pt s1 : Nat) : Nat :=
  ((List.range 64).filter (fun s2 => s1 < s2 && (attacksBBPt pt s1 0).testBit s2)).length

/-- The number of (pc, s1 < s2) insertions performed by Position::init,
i.e. the source's `count`: over the 12 piece identities and all ordered
square pairs, the non-pawn empty-board attack condition.  (Written as a
sum of independent per-square counts so it kernel-evaluates without deep
thunk chains.) -/
def cuckooCount : Nat :=
  (piecesList.map (fun pc =>
    if typeOf pc ≠ 1 then
      ((List.range 64).map (fun s1 => cuckooPairCount (typeOf pc) s1)).sum
    else 0)).sum

/-- The full cuckoo construction of Position::init (fuel-bounded eviction
per insertion). -/
def cuckooInit : CuckooTables :=
  piecesList.foldl (fun tabs pc =>
    (List.range 64).foldl (fun tabs2 s1 =>
      ((List.range 64).filter (fun s2 => s1 < s2)).foldl (fun tabs3 s2 =>
        if cuckooCond pc s1 s2 then
          cuckooInsertLoop 8192 tabs3 (cuckooKey pc s1 s2)
            { fromSq := s1, toSq := s2 } (H1 (cuckooKey pc s1 s2))
        else tabs3) tabs2) tabs) emptyCuckoo

/-- From-scratch board key: XOR over all 64 squares of the (piece, square)
Zobrist constants; empty squares contribute `Zpsq 0 s = 0`. -/
def boardKey (b : Nat → Nat) : Nat :=
  (List.range 64).foldl (fun k s => k ^^^ Zpsq (b s) s) 0

/-- The from-scratch recomputation of the full hash key described by the
spec: XOR over all occupied squares of the (piece, square) constants, the
side key if Black is to move, the en-passant file key if set, and the
castling-rights key. -/
def scratchKey (p : Position) : Nat :=
  let k0 := boardKey p.board
  let k1 := match p.st.epSquare with
    | some ep => k0 ^^^ Zenpassant (fileOf ep)
    | none => k0
  let k2 := if p.sideToMove = .black then k1 ^^^ Zside else k1
  k2 ^^^ Zcastling p.st.castlingRights

/-- Reference model for the SEE claim: the squares of side `c` attacking
`t` that are still present under occupancy `occ` (attacks recomputed from
the masked occupancy each ply, so x-ray attackers appear as pieces are
removed). -/
def attackerSquares (p : Position) (c : Color) (t : Nat) (occ : Nat) : List Nat :=
  (List.range 64).filter (fun s =>
    occ.testBit s && (p.piecesC c).testBit s && (p.attackersTo t occ).testBit s)

/-- Reference model for the SEE claim, following its wording: the best net
material gain, for the side to move, of the capture sequence on square
`t` resolved by exhaustive minimax in which each side chooses freely
whether (and with which piece) to continue capturing, using the engine's
middlegame piece values.  `vOnSq` is the value of the piece currently on
`t`; stopping is always allowed (gain 0). -/
def bruteExchange (p : Position) (t : Nat) : Nat → Nat → Color → Int → Int
  | 0, _, _, _ => 0
  | fuel + 1, occ, stm, vOnSq =>
    (attackerSquares p stm t occ).foldl
      (fun best s =>
        max best (vOnSq - bruteExchange p t fuel (occ ^^^ sqBB s) stm.flip
          (pieceValueMg (p.board s))))
      0

/-- Reference model for the SEE claim: the net material result, for the
side to move, of playing the capture `m` and then resolving the exchange
on the destination square by exhaustive minimax. -/
def bruteNet (p : Position) (m : Move) : Int :=
  pieceValueMg (p.board m.toSq)
    - bruteExchange p m.toSq 32 (p.pieces ^^^ sqBB m.fromSq) p.sideToMove.flip
        (pieceValueMg (p.board m.fromSq))

/-- Concrete-position constructor for witnesses: build a Position from a
list of (square, piece) pairs by the same put_piece calls set()'s
placement loop performs, then compute the state record from scratch via
setState, exactly as set() does. -/
def mkPos (pcs : List (Nat × Nat)) (stm : Color) (castleRooks : List (Color × Nat))
    (ep : Option Nat) (r50 pfn : Nat) : Position :=
  let base : Position :=
    { board := fun _ => 0, byTypeBB := fun _ => 0, byColorBB := fun _ => 0,
      pieceCount := fun _ => 0, castlingRightsMask := fun _ => 0,
      castlingRookSquare := fun _ => 0, castlingPath := fun _ => 0,
      sideToMove := stm, gamePly := 0, chess960 := false,
      st := { epSquare := ep, rule50 := r50, pliesFromNull := pfn },
      prevStates := [] }
  let p1 := pcs.foldl (fun q sp => q.putPiece sp.2 sp.1) base
  let p2 := castleRooks.foldl (fun q cr => q.setCastlingRight cr.1 cr.2) p1
  { p2 with st := p2.setState }

/-! ### Bit-level helper lemmas -/

theorem testBit_sqBB (s i : Nat) : (sqBB s).testBit i = decide (i = s) := by
  simp [sqBB, Nat.shiftLeft_eq, Nat.testBit_two_pow]
  by_cases h : s = i <;> simp [h, eq_comm]

theorem xorLeftComm (a b c : Nat) : a ^^^ (b ^^^ c) = b ^^^ (a ^^^ c) := by
  rw [← Nat.xor_assoc, Nat.xor_comm a b, Nat.xor_assoc]

theorem or_xor_cancel_of_testBit {x : Nat} {s : Nat} (h : x.testBit s = true) :
    (x ^^^ sqBB s) ||| sqBB s = x := by
  refine Nat.eq_of_testBit_eq fun i => ?_
  rcases eq_or_ne i s with rfl | hne
  · simp [Nat.testBit_or, Nat.testBit_xor, testBit_sqBB, h]
  · simp [Nat.testBit_or, Nat.testBit_xor, testBit_sqBB, hne]

theorem xor_or_cancel_of_not_testBit {x : Nat} {s : Nat} (h : x.testBit s = false) :
    (x ||| sqBB s) ^^^ sqBB s = x := by
  refine Nat.eq_of_testBit_eq fun i => ?_
  rcases eq_or_ne i s with rfl | hne
  · simp [Nat.testBit_or, Nat.testBit_xor, testBit_sqBB, h]
  · simp [Nat.testBit_or, Nat.testBit_xor, testBit_sqBB, hne]

theorem or_eq_xor_of_not_testBit {x : Nat} {s : Nat} (h : x.testBit s = false) :
    x ||| sqBB s = x ^^^ sqBB s := by
  refine Nat.eq_of_testBit_eq fun i => ?_
  rcases eq_or_ne i s with rfl | hne
  · simp [Nat.testBit_or, Nat.testBit_xor, testBit_sqBB, h]
  · simp [Nat.testBit_or, Nat.testBit_xor, testBit_sqBB, hne]

/-! ### Well-formedness: the spec's Position invariant (square array and
bitboards agree, bitboards are disjoint by piece type and color). -/

/-- The data-model invariant of a Position: every bitboard bit below 64
agrees with the square array, piece codes are valid, and all bitboards fit
in 64 bits.  `set()` establishes it and every mutation preserves it. -/
def WF (p : Position) : Prop :=
  (∀ s, s < 64 → p.board s = 0 ∨ (1 ≤ typeOf (p.board s) ∧ typeOf (p.board s) ≤ 6)) ∧
  (∀ i, i < 64 → ((p.byTypeBB 0).testBit i = true ↔ p.board i ≠ 0)) ∧
  (∀ i, i < 64 → ∀ u, u < 7 → 1 ≤ u →
    ((p.byTypeBB u).testBit i = true ↔ (p.board i ≠ 0 ∧ typeOf (p.board i) = u))) ∧
  (∀ i, i < 64 →
    ((p.byColorBB .white).testBit i = true ↔ (p.board i ≠ 0 ∧ colorOf (p.board i) = .white)) ∧
    ((p.byColorBB .black).testBit i = true ↔ (p.board i ≠ 0 ∧ colorOf (p.board i) = .black))) ∧
  (∀ u, u < 7 → p.byTypeBB u < 2 ^ 64) ∧
  (p.byColorBB .white < 2 ^ 64 ∧ p.byColorBB .black < 2 ^ 64)

instance (p : Position) : Decidable (WF p) := by
  unfold WF
  infer_instance

/-- Convenience: the color clause of WF for an arbitrary color. -/
theorem WF.colorClause {p : Position} (h : WF p) {i : Nat} (hi : i < 64) (c : Color) :
    (p.byColorBB c).testBit i = true ↔ (p.board i ≠ 0 ∧ colorOf (p.board i) = c) := by
  cases c
  · exact (h.2.2.2.1 i hi).1
  · exact (h.2.2.2.1 i hi).2

/-- Convenience: bits at or above 64 are clear in every WF bitboard. -/
theorem WF.typeHigh {p : Position} (h : WF p) {u : Nat} (hu : u < 7) {i : Nat}
    (hi : 64 ≤ i) : (p.byTypeBB u).testBit i = false := by
  have := h.2.2.2.2.1 u hu
  exact Nat.testBit_lt_two_pow (lt_of_lt_of_le this (Nat.pow_le_pow_right (by omega) hi))

theorem WF.colorHigh {p : Position} (h : WF p) (c : Color) {i : Nat}
    (hi : 64 ≤ i) : (p.byColorBB c).testBit i = false := by
  have hb : p.byColorBB c < 2 ^ 64 := by
    cases c
    · exact h.2.2.2.2.2.1
    · exact h.2.2.2.2.2.2
  exact Nat.testBit_lt_two_pow (lt_of_lt_of_le hb (Nat.pow_le_pow_right (by omega) hi))

/-! ### Easy functional claims -/

/-- A minimal concrete position (two kings) used to instantiate theorems
whose conclusion does not depend on the board. -/
def trivialPos : Position := mkPos [(4, 6), (60, 14)] .white [] none 0 0

/-- C10: for every position and every move whose type is not NORMAL
(promotion, en passant or castling), `see_ge(m, threshold)` returns true
if and only if threshold ≤ 0, independently of the pieces on the board
and of the material outcome of the exchange. -/
theorem seeGe_special_iff (p : Position) (m : Move) (threshold : Int)
    (h : m.mtype ≠ .normal) :
    p.seeGe m threshold = true ↔ threshold ≤ 0 := by
  simp only [Position.seeGe, if_pos h, decide_eq_true_iff, ge_iff_le]

theorem seeGe_special_iff_witness :
    ((⟨4, 7, .castling, 2⟩ : Move).mtype ≠ .normal) ∧
      (trivialPos.seeGe ⟨4, 7, .castling, 2⟩ (-3) = true ↔ (-3 : Int) ≤ 0) :=
  ⟨by decide, seeGe_special_iff trivialPos ⟨4, 7, .castling, 2⟩ (-3) (by decide)⟩

/-- C4: `is_draw(ply)` returns true if and only if either the fifty-move
counter exceeds 99 and the side to move is not in check or has at least
one legal move, or the cached repetition distance is nonzero and strictly
less than ply.  The legal-move count is the abstract argument standing for
`MoveList<LEGAL>(*this).size()` of the move-generation collaborator. -/
theorem isDraw_iff (p : Position) (legalMoveCount : Nat) (ply : Int) :
    p.isDraw legalMoveCount ply = true ↔
      ((p.st.rule50 > 99 ∧ (p.st.checkersBB = 0 ∨ legalMoveCount ≠ 0)) ∨
        (p.st.repetition ≠ 0 ∧ p.st.repetition < ply)) := by
  unfold Position.isDraw
  by_cases h : p.st.rule50 > 99 ∧ (p.st.checkersBB = 0 ∨ legalMoveCount ≠ 0)
  · simp [h]
  · simp [h]

/-! ### C5: the repetition field computed by do_move -/

/-- The state at backward distance `i` in a state chain. -/
def stateAt (chain : List StateInfo) (i : Nat) : StateInfo := chain.getD i {}

/-- C5 reference: the candidate repetition distances 4, 6, 8, ... up to
`endv` (none when endv < 4). -/
def repDistances (endv : Nat) : List Nat :=
  List.range' 4 (if 4 ≤ endv then (endv - 4) / 2 + 1 else 0) 2

/-- C5 reference, following the claim's wording: the first distance i in
4, 6, ... ≤ endv whose state has the given key, negated when that state's
own repetition field is already nonzero; 0 when no distance matches. -/
def specRepetition (key : Nat) (chain : List StateInfo) (endv : Nat) : Int :=
  match (repDistances endv).find? (fun i => (stateAt chain i).key = key) with
  | some i => if (stateAt chain i).repetition ≠ 0 then -(i : Int) else (i : Int)
  | none => 0

theorem repLoop_eq_find (key : Nat) (chain : List StateInfo) (endv : Nat)
    (hlen : endv < chain.length) :
    ∀ n i, (i ≤ endv → n = (endv - i) / 2 + 1) → (endv < i → n = 0) →
    Position.repLoop key chain endv i =
      (match (List.range' i n 2).find? (fun j => (stateAt chain j).key = key) with
        | some j => if (stateAt chain j).repetition ≠ 0 then -(j : Int) else (j : Int)
        | none => 0) := by
  intro n
  induction n with
  | zero =>
    intro i h1 h2
    have hgt : endv < i := by
      by_contra hle
      have := h1 (by omega)
      omega
    rw [Position.repLoop, if_neg (by omega)]
    simp [List.range']
  | succ k ih =>
    intro i h1 h2
    have hle : i ≤ endv := by
      by_contra hgt
      have := h2 (by omega)
      omega
    have hget : chain.get? i = some (stateAt chain i) := by
      have hlt : i < chain.length := by omega
      cases hg : chain.get? i with
      | none =>
        rw [List.get?_eq_none] at hg
        omega
      | some a =>
        have : chain.getD i {} = a := by
          rw [List.getD_eq_get?, hg]
          rfl
        rw [stateAt, this]
    rw [Position.repLoop, if_pos hle, hget]
    rw [List.range'_succ]
    by_cases hk : (stateAt chain i).key = key
    · simp only [hk, if_pos rfl, List.find?_cons, decide_eq_true_eq]
      simp [hk]
    · simp only [List.find?_cons]
      have hd : (decide ((stateAt chain i).key = key)) = false := by
        simp [hk]
      rw [hd]
      simp only [if_neg hk]
      exact ih (i + 2) (fun h => by omega) (fun h => by omega)

theorem repLoop_unfold (key : Nat) (chain : List StateInfo) (endv i : Nat) :
    Position.repLoop key chain endv i =
      (if i ≤ endv then
        match chain.get? i with
        | some stp =>
          if stp.key = key then (if stp.repetition ≠ 0 then -(i : Int) else (i : Int))
          else Position.repLoop key chain endv (i + 2)
        | none => 0
      else 0) := by
  conv_lhs => rw [Position.repLoop]

theorem repLoop_cons_congr (key : Nat) (a b : StateInfo) (rest : List StateInfo)
    (endv : Nat) : ∀ i, 1 ≤ i →
    Position.repLoop key (a :: rest) endv i = Position.repLoop key (b :: rest) endv i := by
  have H : ∀ n i, endv + 1 - i ≤ n → 1 ≤ i →
      Position.repLoop key (a :: rest) endv i = Position.repLoop key (b :: rest) endv i := by
    intro n
    induction n with
    | zero =>
      intro i hn _
      have hgt : ¬ i ≤ endv := by omega
      conv_lhs => rw [repLoop_unfold, if_neg hgt]
      conv_rhs => rw [repLoop_unfold, if_neg hgt]
    | succ k ih =>
      intro i hn hi1
      conv_lhs => rw [repLoop_unfold]
      conv_rhs => rw [repLoop_unfold]
      by_cases hle : i ≤ endv
      · simp only [if_pos hle]
        have hg : (a :: rest).get? i = (b :: rest).get? i := by
          match i, hi1 with
          | i + 1, _ => simp
        rw [hg]
        cases hgt : (b :: rest).get? i with
        | none => rfl
        | some stp =>
          by_cases hk : stp.key = key
          · simp [hk]
          · simp only [if_neg hk]
            exact ih (i + 2) (by omega) (by omega)
      · simp [if_neg hle]
  intro i hi
  exact H (endv + 1) i (by omega) hi

theorem find?_congr_on {α : Type} (f g : α → Bool) :
    ∀ l : List α, (∀ x ∈ l, f x = g x) → l.find? f = l.find? g := by
  intro l
  induction l with
  | nil => intro _; rfl
  | cons a l ih =>
    intro h
    rw [List.find?_cons, List.find?_cons, h a (by simp)]
    cases g a
    · exact ih (fun x hx => h x (by simp [hx]))
    · rfl

theorem mem_repDistances {endv i : Nat} (h : i ∈ repDistances endv) : 4 ≤ i := by
  rw [repDistances] at h
  rcases List.mem_range'.mp h with ⟨j, _, rfl⟩
  omega

theorem specRepetition_cons_congr (key : Nat) (a b : StateInfo)
    (rest : List StateInfo) (endv : Nat) :
    specRepetition key (a :: rest) endv = specRepetition key (b :: rest) endv := by
  unfold specRepetition
  have hstate : ∀ i, 1 ≤ i → stateAt (a :: rest) i = stateAt (b :: rest) i := by
    intro i hi
    match i, hi with
    | i + 1, _ => simp [stateAt]
  have hfind : (repDistances endv).find? (fun i => (stateAt (a :: rest) i).key = key)
      = (repDistances endv).find? (fun i => (stateAt (b :: rest) i).key = key) := by
    apply find?_congr_on
    intro x hx
    rw [hstate x (by have := mem_repDistances hx; omega)]
  rw [hfind]
  cases hf : (repDistances endv).find? (fun i => (stateAt (b :: rest) i).key = key) with
  | none => rfl
  | some j =>
    have hj : j ∈ repDistances endv := List.mem_of_find?_eq_some hf
    dsimp only
    rw [hstate j (by have := mem_repDistances hj; omega)]

theorem computeRepetition_spec (stCi : StateInfo) (rest : List StateInfo)
    (head : StateInfo)
    (hlen : min stCi.rule50 stCi.pliesFromNull ≤ rest.length) :
    Position.computeRepetition stCi rest =
      specRepetition stCi.key (head :: rest) (min stCi.rule50 stCi.pliesFromNull) := by
  unfold Position.computeRepetition
  set endv := min stCi.rule50 stCi.pliesFromNull with hendv
  by_cases h4 : 4 ≤ endv
  · rw [if_pos h4]
    rw [repLoop_cons_congr stCi.key stCi head rest endv 4 (by omega)]
    rw [repLoop_eq_find stCi.key (head :: rest) endv (by simp; omega)
      ((endv - 4) / 2 + 1) 4 (fun _ => rfl) (fun h => by omega)]
    unfold specRepetition repDistances
    rw [if_pos h4]
  · rw [if_neg h4]
    unfold specRepetition repDistances
    rw [if_neg h4]
    simp [List.range']

/-- C5: after do_move, the new state's repetition field equals the
specified backward walk: distances 4, 6, ... up to min(fifty-move
counter, plies since null move), set to the first distance whose state
key equals the new key (negated when that state was itself flagged), and
0 when nothing matches within the bound.  The hypothesis says the
recorded history is at least as long as the walk bound (in the engine the
search stack guarantees this). -/
theorem doMove_repetition (p : Position) (m : Move) (g : Bool)
    (hlen : min (p.doMove m g).st.rule50 (p.doMove m g).st.pliesFromNull
      ≤ (p.doMove m g).prevStates.length) :
    (p.doMove m g).st.repetition =
      specRepetition (p.doMove m g).st.key
        ((p.doMove m g).st :: (p.doMove m g).prevStates)
        (min (p.doMove m g).st.rule50 (p.doMove m g).st.pliesFromNull) :=
  computeRepetition_spec _ _ _ hlen

theorem doMove_repetition_witness :
    (min ((trivialPos.doMove ⟨4, 3, .normal, 2⟩ false).st.rule50)
        ((trivialPos.doMove ⟨4, 3, .normal, 2⟩ false).st.pliesFromNull)
      ≤ (trivialPos.doMove ⟨4, 3, .normal, 2⟩ false).prevStates.length) ∧
    ((trivialPos.doMove ⟨4, 3, .normal, 2⟩ false).st.repetition =
      specRepetition ((trivialPos.doMove ⟨4, 3, .normal, 2⟩ false).st.key)
        ((trivialPos.doMove ⟨4, 3, .normal, 2⟩ false).st
          :: (trivialPos.doMove ⟨4, 3, .normal, 2⟩ false).prevStates)
        (min ((trivialPos.doMove ⟨4, 3, .normal, 2⟩ false).st.rule50)
          ((trivialPos.doMove ⟨4, 3, .normal, 2⟩ false).st.pliesFromNull))) :=
  ⟨by decide, doMove_repetition trivialPos ⟨4, 3, .normal, 2⟩ false (by decide)⟩

/-! ### C6: legality of ordinary moves is exactly the pin condition -/

/-- C6: for every non-king, non-castling, non-en-passant move of the side
to move, legal(m) returns true iff the moved piece is not a blocker for
its own king (not pinned) or its origin, destination and king square are
aligned on one ray. -/
theorem legal_normal_iff (p : Position) (m : Move)
    (h1 : m.mtype ≠ .enPassant) (h2 : m.mtype ≠ .castling)
    (h3 : typeOf (p.board m.fromSq) ≠ 6) :
    p.legal m = true ↔
      (p.st.blockersForKing p.sideToMove &&& sqBB m.fromSq = 0 ∨
        aligned m.fromSq m.toSq (p.kingSq p.sideToMove) = true) := by
  unfold Position.legal
  simp only [if_neg h1, if_neg h2, if_neg h3]
  simp [Bool.or_eq_true, beq_iff_eq]

/-- The spec's pinned-rook scenario: White Ke1 and Re4 are on the e-file
with a black rook on e8 pinning Re4. -/
def pinnedPos : Position := mkPos [(4, 6), (28, 4), (60, 12), (57, 14)] .white [] none 0 0

theorem legal_normal_iff_witness :
    typeOf (pinnedPos.board 28) ≠ 6 ∧
      pinnedPos.legal ⟨28, 27, .normal, 2⟩ = false ∧
      pinnedPos.legal ⟨28, 36, .normal, 2⟩ = true := by
  refine ⟨by decide, ?_, ?_⟩
  · have h := legal_normal_iff pinnedPos ⟨28, 27, .normal, 2⟩ (by decide) (by decide) (by decide)
    have hno : ¬ (pinnedPos.st.blockersForKing pinnedPos.sideToMove &&& sqBB 28 = 0 ∨
        aligned 28 27 (pinnedPos.kingSq pinnedPos.sideToMove) = true) := by decide
    cases hb : pinnedPos.legal ⟨28, 27, .normal, 2⟩ with
    | false => rfl
    | true => exact absurd (h.mp hb) hno
  · have h := legal_normal_iff pinnedPos ⟨28, 36, .normal, 2⟩ (by decide) (by decide) (by decide)
    exact h.mpr (by decide)

/-! ### C7: the frame of do_null_move (corrected: the check-squares cache
is recomputed for the new side to move and generally changes value) -/

/-- C7 counterexample: a reachable position not in check where
do_null_move changes the checkSquares StateInfo field (the rook check
squares are now computed from the other king), so not every field outside
the claim's exception list is preserved. -/
theorem doNullMove_checkSquares_cex :
    trivialPos.st.checkersBB = 0 ∧
      trivialPos.doNullMove.st.checkSquares 4 ≠ trivialPos.st.checkSquares 4 := by
  decide

/-- C7 amended: do_null_move flips only the side to move and leaves the
board array and all bitboards unchanged; in the new state every field is
preserved except that the en-passant square is cleared (with its key
contribution removed), the plies-since-null counter is reset to 0, the
key is additionally XORed with the side key, and the check-info caches
are recomputed (from the unchanged board, so blockers and pinners keep
their computed values while the check squares now refer to the other
king); in particular the fifty-move counter and the repetition field keep
their previous values. -/
theorem doNullMove_frame (p : Position) (hchk : p.st.checkersBB = 0) :
    p.doNullMove.board = p.board ∧
    p.doNullMove.byTypeBB = p.byTypeBB ∧
    p.doNullMove.byColorBB = p.byColorBB ∧
    p.doNullMove.sideToMove = p.sideToMove.flip ∧
    p.doNullMove.st.epSquare = none ∧
    p.doNullMove.st.pliesFromNull = 0 ∧
    p.doNullMove.st.key = (match p.st.epSquare with
      | some ep => p.st.key ^^^ Zenpassant (fileOf ep)
      | none => p.st.key) ^^^ Zside ∧
    p.doNullMove.st.rule50 = p.st.rule50 ∧
    p.doNullMove.st.repetition = p.st.repetition ∧
    p.doNullMove.st.pawnKey = p.st.pawnKey ∧
    p.doNullMove.st.materialKey = p.st.materialKey ∧
    p.doNullMove.st.castlingRights = p.st.castlingRights ∧
    p.doNullMove.st.capturedPiece = p.st.capturedPiece ∧
    p.doNullMove.st.checkersBB = p.st.checkersBB ∧
    p.doNullMove.st.nonPawnMaterialW = p.st.nonPawnMaterialW ∧
    p.doNullMove.st.nonPawnMaterialB = p.st.nonPawnMaterialB ∧
    p.doNullMove.st.blockersForKingW
      = (p.sliderBlockers (p.piecesC .black) (p.kingSq .white)).1 ∧
    p.doNullMove.st.blockersForKingB
      = (p.sliderBlockers (p.piecesC .white) (p.kingSq .black)).1 ∧
    p.doNullMove.st.pinnersB
      = (p.sliderBlockers (p.piecesC .black) (p.kingSq .white)).2 ∧
    p.doNullMove.st.pinnersW
      = (p.sliderBlockers (p.piecesC .white) (p.kingSq .black)).2 ∧
    p.doNullMove.st.checkSquares 4 = rookAttacks (p.kingSq p.sideToMove) p.pieces ∧
    p.doNullMove.st.checkSquares 2 = knightAttacks (p.kingSq p.sideToMove) := by
  cases hep : p.st.epSquare with
  | none =>
    refine ⟨rfl, rfl, rfl, rfl, ?_, ?_, ?_, ?_, ?_, ?_, ?_, ?_, ?_, ?_, ?_, ?_,
      rfl, rfl, rfl, rfl, ?_, ?_⟩ <;>
      cases hstm : p.sideToMove <;>
      simp [Position.doNullMove, Position.setCheckInfo, hep, hstm, Color.flip,
        Position.kingSq, Position.pieces, Position.piecesCPt, Position.piecesC]
  | some ep =>
    refine ⟨rfl, rfl, rfl, rfl, ?_, ?_, ?_, ?_, ?_, ?_, ?_, ?_, ?_, ?_, ?_, ?_,
      rfl, rfl, rfl, rfl, ?_, ?_⟩ <;>
      cases hstm : p.sideToMove <;>
      simp [Position.doNullMove, Position.setCheckInfo, hep, hstm, Color.flip,
        Position.kingSq, Position.pieces, Position.piecesCPt, Position.piecesC]

theorem doNullMove_frame_witness :
    trivialPos.st.checkersBB = 0 ∧ trivialPos.doNullMove.st.rule50 = trivialPos.st.rule50 :=
  ⟨by decide, (doNullMove_frame trivialPos (by decide)).2.2.2.2.2.2.2.1⟩

/-! ### C9: the cuckoo construction -/

/-- The cuckoo placement invariant: every stored pair sits at one of the
two candidate slots of its key. -/
def TabOK (tabs : CuckooTables) : Prop :=
  ∀ j, (tabs.moves j).isSome → j = H1 (tabs.keys j) ∨ j = H2 (tabs.keys j)

theorem cuckooInsertLoop_inv :
    ∀ fuel tabs key mv i, TabOK tabs → (i = H1 key ∨ i = H2 key) →
    TabOK (cuckooInsertLoop fuel tabs key mv i) := by
  intro fuel
  induction fuel with
  | zero => intro tabs key mv i h _; exact h
  | succ k ih =>
    intro tabs key mv i h hi
    rw [cuckooInsertLoop]
    have htabs' : TabOK { keys := Function.update tabs.keys i key, moves := Function.update tabs.moves i (some mv) } := by
      intro j hj
      by_cases hji : j = i
      · subst hji
        simp only [Function.update_same]
        exact hi
      · simp only [Function.update_noteq hji] at hj ⊢
        exact h j hj
    cases hmv : tabs.moves i with
    | none => simpa [hmv] using htabs'
    | some mv' =>
      simp only [hmv]
      refine ih _ _ _ _ htabs' ?_
      by_cases hh : i = H1 (tabs.keys i)
      · rw [if_pos hh]
        exact Or.inr rfl
      · rw [if_neg hh]
        exact Or.inl rfl

theorem foldl_preserve {α β : Type} (P : β → Prop) (f : β → α → β)
    (hf : ∀ b a, P b → P (f b a)) : ∀ l : List α, ∀ b, P b → P (l.foldl f b) := by
  intro l
  induction l with
  | nil => intro b h; exact h
  | cons a l ih => intro b h; exact ih (f b a) (hf b a h)

theorem cuckooInit_ok : TabOK cuckooInit := by
  refine foldl_preserve TabOK _ ?_ piecesList emptyCuckoo ?_
  · intro tabs pc htabs
    refine foldl_preserve TabOK _ ?_ _ tabs htabs
    intro tabs2 s1 h2
    refine foldl_preserve TabOK _ ?_ _ tabs2 h2
    intro tabs3 s2 h3
    by_cases hc : cuckooCond pc s1 s2
    · simp only [if_pos hc]
      exact cuckooInsertLoop_inv _ _ _ _ _ h3 (Or.inl rfl)
    · simp only [if_neg hc]
      exact h3
  · intro j hj
    simp [emptyCuckoo] at hj

set_option maxRecDepth 8000 in
/-- C9: iterating over the 12 piece identities and all ordered square
pairs s1 < s2, the condition "non-pawn piece whose empty-board attack set
from s1 contains s2" holds exactly 3668 times, and after all
double-hashing insertions every (key, move) pair stored in the tables
sits at one of its two candidate slots H1(key) or H2(key). -/
theorem cuckoo_count_and_slots :
    cuckooCount = 3668 ∧
      ∀ j, (cuckooInit.moves j).isSome →
        j = H1 (cuckooInit.keys j) ∨ j = H2 (cuckooInit.keys j) :=
  ⟨by decide, cuckooInit_ok⟩

/-! ### C3: see_ge against the exhaustive minimax reference -/

theorem stepSq_coords {s s2 : Nat} {df dr : Int} (h : stepSq s df dr = some s2) :
    (fileOf s2 : Int) = (fileOf s : Int) + df ∧
      (rankOf s2 : Int) = (rankOf s : Int) + dr := by
  unfold stepSq at h
  by_cases hc : 0 ≤ (fileOf s : Int) + df ∧ (fileOf s : Int) + df < 8 ∧
      0 ≤ (rankOf s : Int) + dr ∧ (rankOf s : Int) + dr < 8
  · rw [if_pos hc] at h
    obtain ⟨h1, h2, h3, h4⟩ := hc
    injection h with h
    subst h
    have ha : (((fileOf s : Int) + df).toNat : Int) = (fileOf s : Int) + df :=
      Int.toNat_of_nonneg h1
    have hb : (((rankOf s : Int) + dr).toNat : Int) = (rankOf s : Int) + dr :=
      Int.toNat_of_nonneg h3
    have ha8 : ((fileOf s : Int) + df).toNat < 8 := by omega
    have hfile : fileOf (((rankOf s : Int) + dr).toNat * 8 + ((fileOf s : Int) + df).toNat)
        = ((fileOf s : Int) + df).toNat := by
      unfold fileOf at ha8 ⊢
      omega
    have hrank : rankOf (((rankOf s : Int) + dr).toNat * 8 + ((fileOf s : Int) + df).toNat)
        = ((rankOf s : Int) + dr).toNat := by
      unfold rankOf
      omega
    rw [hfile, hrank, ha, hb]
    exact ⟨rfl, rfl⟩
  · rw [if_neg hc] at h
    exact absurd h (by simp)

/-- Squares strictly advanced from `t` in the direction (df, dr). -/
def awayFrom (t : Nat) (df dr : Int) (s : Nat) : Prop :=
  (0 < df → (fileOf t : Int) < (fileOf s : Int)) ∧
  (df < 0 → (fileOf s : Int) < (fileOf t : Int)) ∧
  (0 < dr → (rankOf t : Int) < (rankOf s : Int)) ∧
  (dr < 0 → (rankOf s : Int) < (rankOf t : Int))

theorem awayFrom_ne {t : Nat} {df dr : Int} {s : Nat}
    (hd : ¬(df = 0 ∧ dr = 0)) (h : awayFrom t df dr s) : s ≠ t := by
  obtain ⟨h1, h2, h3, h4⟩ := h
  intro he
  subst he
  rcases lt_trichotomy df 0 with hf | hf | hf
  · have := h2 hf; omega
  · subst hf
    rcases lt_trichotomy dr 0 with hr | hr | hr
    · have := h4 hr; omega
    · exact hd ⟨rfl, hr⟩
    · have := h3 hr; omega
  · have := h1 hf; omega

theorem awayFrom_step {t : Nat} {df dr : Int} {s s2 : Nat}
    (h : awayFrom t df dr s ∨ s = t) (hstep : stepSq s df dr = some s2) :
    awayFrom t df dr s2 := by
  obtain ⟨hf, hr⟩ := stepSq_coords hstep
  rcases h with ha | he
  · obtain ⟨h1, h2, h3, h4⟩ := ha
    refine ⟨fun hlt => ?_, fun hlt => ?_, fun hlt => ?_, fun hlt => ?_⟩
    · have := h1 hlt; omega
    · have := h2 hlt; omega
    · have := h3 hlt; omega
    · have := h4 hlt; omega
  · subst he
    refine ⟨fun hlt => ?_, fun hlt => ?_, fun hlt => ?_, fun hlt => ?_⟩ <;> omega

theorem rayGo_unfold (occ : Nat) (df dr : Int) (fuel s acc : Nat) :
    rayGo occ df dr (fuel + 1) s acc =
      (match stepSq s df dr with
        | none => acc
        | some u =>
          if occ.testBit u then acc ||| sqBB u
          else rayGo occ df dr fuel u (acc ||| sqBB u)) := rfl

/-- The ray walk from `t` never tests the occupancy of `t` itself, so it
is insensitive to occupancy changes at its origin square. -/
theorem rayGo_agree (occ occ' : Nat) (t : Nat) (df dr : Int)
    (hd : ¬(df = 0 ∧ dr = 0))
    (hocc : ∀ i, i ≠ t → occ.testBit i = occ'.testBit i) :
    ∀ fuel s acc, (awayFrom t df dr s ∨ s = t) →
      rayGo occ df dr fuel s acc = rayGo occ' df dr fuel s acc := by
  intro fuel
  induction fuel with
  | zero => intro s acc _; rfl
  | succ k ih =>
    intro s acc hQ
    rw [rayGo_unfold, rayGo_unfold]
    cases hstep : stepSq s df dr with
    | none => rfl
    | some u =>
      have hau : awayFrom t df dr u := awayFrom_step hQ hstep
      have hne : u ≠ t := awayFrom_ne hd hau
      dsimp only
      rw [hocc u hne]
      by_cases hb : occ'.testBit u
      · simp [hb]
      · simp only [hb, if_neg Bool.false_ne_true]
        exact ih u (acc ||| sqBB u) (Or.inl hau)

theorem rookAttacks_agree (t occ occ' : Nat)
    (hocc : ∀ i, i ≠ t → occ.testBit i = occ'.testBit i) :
    rookAttacks t occ = rookAttacks t occ' := by
  unfold rookAttacks
  simp only [List.foldl_cons, List.foldl_nil, rayBB]
  rw [rayGo_agree occ occ' t 1 0 (by omega) hocc 7 t 0 (Or.inr rfl),
    rayGo_agree occ occ' t 0 1 (by omega) hocc 7 t 0 (Or.inr rfl),
    rayGo_agree occ occ' t (-1) 0 (by omega) hocc 7 t 0 (Or.inr rfl),
    rayGo_agree occ occ' t 0 (-1) (by omega) hocc 7 t 0 (Or.inr rfl)]

theorem bishopAttacks_agree (t occ occ' : Nat)
    (hocc : ∀ i, i ≠ t → occ.testBit i = occ'.testBit i) :
    bishopAttacks t occ = bishopAttacks t occ' := by
  unfold bishopAttacks
  simp only [List.foldl_cons, List.foldl_nil, rayBB]
  rw [rayGo_agree occ occ' t 1 1 (by omega) hocc 7 t 0 (Or.inr rfl),
    rayGo_agree occ occ' t 1 (-1) (by omega) hocc 7 t 0 (Or.inr rfl),
    rayGo_agree occ occ' t (-1) (-1) (by omega) hocc 7 t 0 (Or.inr rfl),
    rayGo_agree occ occ' t (-1) 1 (by omega) hocc 7 t 0 (Or.inr rfl)]

/-- Attacks to a square do not depend on the occupancy of that square. -/
theorem attackersTo_toggle (p : Position) (t occ : Nat) :
    p.attackersTo t (occ ^^^ sqBB t) = p.attackersTo t occ := by
  have hocc : ∀ i, i ≠ t → (occ ^^^ sqBB t).testBit i = occ.testBit i := by
    intro i hne
    simp [Nat.testBit_xor, testBit_sqBB, hne]
  unfold Position.attackersTo
  rw [rookAttacks_agree t _ _ hocc, bishopAttacks_agree t _ _ hocc]

/-- Number of squares set in a bitboard (population count). -/
def bbCount (b : Nat) : Nat := ((List.range 64).filter (fun i => b.testBit i)).length

/-- The pinned-defender position: White Kh1, Rd1, Bh4; Black Kd8, Ne7,
Pd5.  The knight is the only defender of d5 but is pinned by the bishop. -/
def seePos : Position :=
  mkPos [(7, 6), (3, 4), (31, 3), (59, 14), (52, 10), (35, 9)] .white [] none 0 0

/-- C3 counterexample: a position with one attacker and one defender of
the destination square (within the claimed up-to-4-per-side range) where
see_ge(Rxd5, 0) returns true — the pinned knight is masked out — while
the exhaustive minimax resolution of the capture sequence on d5 nets
-1150, refuting the claimed equivalence at threshold 0. -/
theorem seeGe_minimax_cex :
    seePos.seeGe ⟨3, 35, .normal, 2⟩ 0 = true ∧
      ¬ ((0 : Int) ≤ bruteNet seePos ⟨3, 35, .normal, 2⟩) ∧
      bbCount (seePos.attackersToDefault 35 &&& seePos.piecesC .white) ≤ 4 ∧
      bbCount (seePos.attackersToDefault 35 &&& seePos.piecesC .black) ≤ 4 := by
  decide

theorem bruteExchange_unfold (p : Position) (t fuel occ : Nat) (stm : Color) (v : Int) :
    bruteExchange p t (fuel + 1) occ stm v =
      (attackerSquares p stm t occ).foldl
        (fun best s => max best (v - bruteExchange p t fuel (occ ^^^ sqBB s) stm.flip
          (pieceValueMg (p.board s)))) 0 := rfl

theorem seeLoop_unfold (p : Position) (t fuel : Nat) (stm0 : Color)
    (occ0 att0 : Nat) (swap0 : Int) (res0 : Nat)
    (h : att0 &&& occ0 &&& p.piecesC stm0.flip = 0) :
    p.seeLoop t (fuel + 1) stm0 occ0 att0 swap0 res0 = decide (res0 ≠ 0) := by
  simp only [Position.seeLoop]
  rw [h]
  simp

/-- C3 amended: the claimed equivalence between see_ge and the exhaustive
minimax resolution holds whenever the opponent has no remaining attacker
of the destination square once the capture is made (then both sides
reduce to comparing the captured piece's value with the threshold); the
counterexample shows it fails in general within the claimed
up-to-4-attackers range as soon as a defender is pinned, because see_ge
masks pinned attackers while the exhaustive minimax does not. -/
theorem seeGe_minimax_agree (p : Position) (m : Move) (threshold : Int)
    (hWF : WF p) (hn : m.mtype = .normal) (hf : m.fromSq < 64) (ht : m.toSq < 64)
    (hft : m.fromSq ≠ m.toSq) (hoccT : p.board m.toSq ≠ 0)
    (hno : attackerSquares p p.sideToMove.flip m.toSq (p.pieces ^^^ sqBB m.fromSq) = []) :
    (p.seeGe m threshold = true ↔ threshold ≤ bruteNet p m) := by
  have hnn : ¬ (m.mtype ≠ .normal) := by simp [hn]
  have hBE : bruteExchange p m.toSq 32 (p.pieces ^^^ sqBB m.fromSq) p.sideToMove.flip
      (pieceValueMg (p.board m.fromSq)) = 0 := by
    rw [show (32 : Nat) = 31 + 1 from rfl, bruteExchange_unfold, hno]
    rfl
  have hBN : bruteNet p m = pieceValueMg (p.board m.toSq) := by
    unfold bruteNet
    rw [hBE]
    omega
  rw [hBN]
  unfold Position.seeGe
  rw [if_neg hnn]
  by_cases h0 : pieceValueMg (p.board m.toSq) - threshold < 0
  · rw [if_pos h0]
    constructor
    · intro h; cases h
    · intro h; omega
  · rw [if_neg h0]
    by_cases h1 : pieceValueMg (p.board m.fromSq) - (pieceValueMg (p.board m.toSq) - threshold) ≤ 0
    · rw [if_pos h1]
      constructor
      · intro _; omega
      · intro _; rfl
    · rw [if_neg h1]
      -- the first swap-loop iteration finds no opposing attacker and stops
      have hforall := List.filter_eq_nil.mp hno
      have hz : p.attackersTo m.toSq (p.pieces ^^^ sqBB m.fromSq ^^^ sqBB m.toSq)
          &&& (p.pieces ^^^ sqBB m.fromSq ^^^ sqBB m.toSq)
          &&& p.piecesC p.sideToMove.flip = 0 := by
        rw [attackersTo_toggle p m.toSq (p.pieces ^^^ sqBB m.fromSq)]
        refine Nat.eq_of_testBit_eq fun i => ?_
        simp only [Nat.testBit_and, Nat.zero_testBit, Bool.and_eq_false_imp]
        by_cases hi : i < 64
        · intro hatt
          simp only [Bool.and_eq_true] at hatt
          by_cases hit : i = m.toSq
          · have hocc2 : (p.pieces).testBit m.toSq = true :=
              (hWF.2.1 m.toSq (hit ▸ hi)).2 hoccT
            have htf : m.toSq ≠ m.fromSq := Ne.symm hft
            have hbit : (p.pieces ^^^ sqBB m.fromSq ^^^ sqBB m.toSq).testBit m.toSq = false := by
              simp [Nat.testBit_xor, testBit_sqBB, hocc2, htf]
            rw [hit, hbit] at hatt
            exact absurd hatt.2 (by simp)
          · have hmem := hforall i (by simp [List.mem_range]; omega)
            simp only [Bool.and_eq_true, not_and, decide_eq_true_eq] at hmem
            have htog : (p.pieces ^^^ sqBB m.fromSq ^^^ sqBB m.toSq).testBit i
                = (p.pieces ^^^ sqBB m.fromSq).testBit i := by
              simp [Nat.testBit_xor, testBit_sqBB, hit]
            rw [htog] at hatt
            by_contra hcol
            simp only [Bool.not_eq_false] at hcol
            exact absurd hcol (by simpa [hatt.2, hatt.1] using hmem)
        · intro _
          exact hWF.colorHigh p.sideToMove.flip (by omega)
      rw [show (33 : Nat) = 32 + 1 from rfl, seeLoop_unfold p m.toSq 32 p.sideToMove _ _ _ _ hz]
      constructor
      · intro _; omega
      · intro _; rfl

/-- An undefended capture: White Kh1, Pe4; Black Kb8, Pd5; exd5 has no
reply on d5. -/
def seeAgreePos : Position :=
  mkPos [(7, 6), (28, 1), (57, 14), (35, 9)] .white [] none 0 0

theorem seeGe_minimax_agree_witness :
    WF seeAgreePos ∧
      (seeAgreePos.seeGe ⟨28, 35, .normal, 2⟩ 0 = true ↔
        (0 : Int) ≤ bruteNet seeAgreePos ⟨28, 35, .normal, 2⟩) :=
  ⟨by decide, seeGe_minimax_agree seeAgreePos ⟨28, 35, .normal, 2⟩ 0 (by decide) rfl
    (by decide) (by decide) (by decide) (by decide) (by decide)⟩


/-! ### C1: the do/undo roundtrip -/

theorem Color.flip_flip (c : Color) : c.flip.flip = c := by cases c <;> rfl

namespace Position

theorem doMove_board (p : Position) (m : Move) (g : Bool) :
    (p.doMove m g).board = (doMoveP4 p m).board := rfl

theorem doMove_byTypeBB (p : Position) (m : Move) (g : Bool) :
    (p.doMove m g).byTypeBB = (doMoveP4 p m).byTypeBB := rfl

theorem doMove_byColorBB (p : Position) (m : Move) (g : Bool) :
    (p.doMove m g).byColorBB = (doMoveP4 p m).byColorBB := rfl

theorem doMove_sideToMove (p : Position) (m : Move) (g : Bool) :
    (p.doMove m g).sideToMove = p.sideToMove.flip := rfl

theorem doMove_capturedPiece (p : Position) (m : Move) (g : Bool) :
    (p.doMove m g).st.capturedPiece = moveCaptured p m := rfl

theorem doMove_prevStates (p : Position) (m : Move) (g : Bool) :
    (p.doMove m g).prevStates = p.st :: p.prevStates := rfl

theorem undoMove_board (p : Position) (m : Move) :
    (p.undoMove m).board = (undoMoveP2 p m).board := rfl

theorem undoMove_st (p : Position) (m : Move) :
    (p.undoMove m).st = p.prevStates.headD {} := rfl

theorem typeOf_makePiece (c : Color) (pt : Nat) (h : pt < 8) :
    typeOf (makePiece c pt) = pt := by
  cases c <;> simp [typeOf, makePiece] <;> omega

theorem colorOf_makePiece (c : Color) (pt : Nat) (h1 : 1 ≤ pt) (h2 : pt < 8) :
    colorOf (makePiece c pt) = c := by
  cases c <;> simp [colorOf, makePiece] <;> omega

theorem makePiece_ne_zero (c : Color) (pt : Nat) (h : 1 ≤ pt) :
    makePiece c pt ≠ 0 := by
  cases c <;> simp [makePiece] <;> omega

theorem mtF1 : (MoveType.normal = MoveType.castling) = False := by decide
theorem mtF2 : (MoveType.normal = MoveType.enPassant) = False := by decide
theorem mtF3 : (MoveType.normal = MoveType.promotion) = False := by decide

theorem roundtrip_normal (p : Position) (f t pr : Nat) (g : Bool)
    (hWF : WF p) (hf64 : f < 64) (ht64 : t < 64) (hft : f ≠ t)
    (hpc : p.board f ≠ 0) :
    (∀ s, ((p.doMove ⟨f, t, .normal, pr⟩ g).undoMove ⟨f, t, .normal, pr⟩).board s = p.board s) ∧
    (∀ u, ((p.doMove ⟨f, t, .normal, pr⟩ g).undoMove ⟨f, t, .normal, pr⟩).byTypeBB u = p.byTypeBB u) ∧
    (∀ c, ((p.doMove ⟨f, t, .normal, pr⟩ g).undoMove ⟨f, t, .normal, pr⟩).byColorBB c = p.byColorBB c) := by
  have hT0f : (p.byTypeBB 0).testBit f = true := (hWF.2.1 f hf64).2 hpc
  have hTPf : (p.byTypeBB (typeOf (p.board f))).testBit f = true := by
    rcases hWF.1 f hf64 with h | h
    · exact absurd h hpc
    · exact ((hWF.2.2.1 f hf64 (typeOf (p.board f)) (by omega) h.1)).2 ⟨hpc, rfl⟩
  have hCPf : (p.byColorBB (colorOf (p.board f))).testBit f = true :=
    (hWF.colorClause hf64 (colorOf (p.board f))).2 ⟨hpc, rfl⟩
  have hPtf : typeOf (p.board f) ≠ 0 := by
    rcases hWF.1 f hf64 with h | h
    · exact absurd h hpc
    · omega
  have hPtf' : (0 : Nat) ≠ typeOf (p.board f) := Ne.symm hPtf
  refine ⟨?_, ?_, ?_⟩
  · intro s
    rw [undoMove_board]
    simp only [undoMoveP2, undoMoveP1, doMove_capturedPiece, doMove_sideToMove, Color.flip_flip,
      mtF1, mtF2, mtF3, if_false, ite_false]
    simp only [moveCaptured, moveT1, moveCapSq, mtF1, mtF2, mtF3, if_false, ite_false]
    simp only [Position.movePiece, Position.putPiece]
    simp only [doMove_board]
    simp only [doMoveP4, doMoveP3, doMoveP2, doMoveP1, moveCaptured, moveT1, moveCapSq,
      mtF1, mtF2, mtF3, if_false, ite_false]
    by_cases hcap : p.board t = 0
    all_goals
      by_cases h1 : s = t <;> by_cases h2 : s = f <;>
        simp [hcap, h1, h2, hft, Ne.symm hft, Position.movePiece, Position.removePiece,
          Position.putPiece, Function.update_apply]
  · intro u
    rw [show ((p.doMove ⟨f, t, .normal, pr⟩ g).undoMove ⟨f, t, .normal, pr⟩).byTypeBB
        = (undoMoveP2 (p.doMove ⟨f, t, .normal, pr⟩ g) ⟨f, t, .normal, pr⟩).byTypeBB from rfl]
    simp only [undoMoveP2, undoMoveP1, doMove_capturedPiece, doMove_sideToMove, Color.flip_flip,
      mtF1, mtF2, mtF3, if_false, ite_false]
    simp only [moveCaptured, moveT1, moveCapSq, mtF1, mtF2, mtF3, if_false, ite_false]
    simp only [Position.movePiece, Position.putPiece]
    simp only [doMove_board, doMove_byTypeBB]
    simp only [doMoveP4, doMoveP3, doMoveP2, doMoveP1, moveCaptured, moveT1, moveCapSq,
      mtF1, mtF2, mtF3, if_false, ite_false]
    by_cases hcap : p.board t = 0
    · -- no capture
      simp [hcap, Position.movePiece, Position.removePiece, Position.putPiece,
        Function.update_apply, hft, Ne.symm hft]
      refine Nat.eq_of_testBit_eq fun i => ?_
      by_cases hu0 : u = 0 <;> by_cases huP : u = typeOf (p.board f) <;>
        by_cases hi1 : i = f <;> by_cases hi2 : i = t <;>
          simp [hu0, huP, hi1, hi2, Nat.testBit_xor, Nat.testBit_or, testBit_sqBB,
            hft, Ne.symm hft, hT0f, hTPf, hPtf, hPtf', Nat.or_comm]
    · -- capture
      have hT0t : (p.byTypeBB 0).testBit t = true := (hWF.2.1 t ht64).2 hcap
      have hTCt : (p.byTypeBB (typeOf (p.board t))).testBit t = true := by
        rcases hWF.1 t ht64 with h | h
        · exact absurd h hcap
        · exact ((hWF.2.2.1 t ht64 (typeOf (p.board t)) (by omega) h.1)).2 ⟨hcap, rfl⟩
      have hPtt : typeOf (p.board t) ≠ 0 := by
        rcases hWF.1 t ht64 with h | h
        · exact absurd h hcap
        · omega
      have hPtt' : (0 : Nat) ≠ typeOf (p.board t) := Ne.symm hPtt
      simp [hcap, Position.movePiece, Position.removePiece, Position.putPiece,
        Function.update_apply, hft, Ne.symm hft]
      refine Nat.eq_of_testBit_eq fun i => ?_
      by_cases hu0 : u = 0 <;> by_cases huP : u = typeOf (p.board f) <;>
        by_cases huC : u = typeOf (p.board t) <;>
        by_cases hPT : typeOf (p.board f) = typeOf (p.board t) <;>
        by_cases hi1 : i = f <;> by_cases hi2 : i = t <;>
          simp [hu0, huP, huC, hPT, hi1, hi2, Nat.testBit_xor, Nat.testBit_or, testBit_sqBB,
            hft, Ne.symm hft, hT0f, hTPf, hT0t, hTCt, hPtf, hPtf', hPtt, hPtt', Nat.or_comm, eq_comm]
  · intro c
    rw [show ((p.doMove ⟨f, t, .normal, pr⟩ g).undoMove ⟨f, t, .normal, pr⟩).byColorBB
        = (undoMoveP2 (p.doMove ⟨f, t, .normal, pr⟩ g) ⟨f, t, .normal, pr⟩).byColorBB from rfl]
    simp only [undoMoveP2, undoMoveP1, doMove_capturedPiece, doMove_sideToMove, Color.flip_flip,
      mtF1, mtF2, mtF3, if_false, ite_false]
    simp only [moveCaptured, moveT1, moveCapSq, mtF1, mtF2, mtF3, if_false, ite_false]
    simp only [Position.movePiece, Position.putPiece]
    simp only [doMove_board, doMove_byColorBB]
    simp only [doMoveP4, doMoveP3, doMoveP2, doMoveP1, moveCaptured, moveT1, moveCapSq,
      mtF1, mtF2, mtF3, if_false, ite_false]
    by_cases hcap : p.board t = 0
    · simp [hcap, Position.movePiece, Position.removePiece, Position.putPiece,
        Function.update_apply, hft, Ne.symm hft]
      refine Nat.eq_of_testBit_eq fun i => ?_
      by_cases hcP : c = colorOf (p.board f) <;>
        by_cases hi1 : i = f <;> by_cases hi2 : i = t <;>
          simp [hcP, hi1, hi2, Nat.testBit_xor, Nat.testBit_or, testBit_sqBB,
            hft, Ne.symm hft, hCPf, Nat.or_comm]
    · have hCCt : (p.byColorBB (colorOf (p.board t))).testBit t = true :=
        (hWF.colorClause ht64 (colorOf (p.board t))).2 ⟨hcap, rfl⟩
      simp [hcap, Position.movePiece, Position.removePiece, Position.putPiece,
        Function.update_apply, hft, Ne.symm hft]
      refine Nat.eq_of_testBit_eq fun i => ?_
      by_cases hcP : c = colorOf (p.board f) <;> by_cases hcC : c = colorOf (p.board t) <;>
        by_cases hCC : colorOf (p.board f) = colorOf (p.board t) <;>
        by_cases hi1 : i = f <;> by_cases hi2 : i = t <;>
          simp [hcP, hcC, hCC, hi1, hi2, Nat.testBit_xor, Nat.testBit_or, testBit_sqBB,
            hft, Ne.symm hft, hCPf, hCCt, Nat.or_comm, eq_comm]

end Position

namespace Position

theorem mtE1 : (MoveType.enPassant = MoveType.castling) = False := by decide
theorem mtE2 : (MoveType.enPassant = MoveType.promotion) = False := by decide

theorem roundtrip_enpassant (p : Position) (f t pr : Nat) (g : Bool)
    (hWF : WF p) (hf64 : f < 64) (ht64 : t < 64) (hft : f ≠ t)
    (hpc : p.board f ≠ 0)
    (hbt : p.board t = 0)
    (hcapb : p.board (((t : Int) - pawnPush p.sideToMove).toNat)
      = makePiece p.sideToMove.flip 1)
    (he64 : ((t : Int) - pawnPush p.sideToMove).toNat < 64)
    (hef : ((t : Int) - pawnPush p.sideToMove).toNat ≠ f)
    (het : ((t : Int) - pawnPush p.sideToMove).toNat ≠ t) :
    (∀ s, ((p.doMove ⟨f, t, .enPassant, pr⟩ g).undoMove ⟨f, t, .enPassant, pr⟩).board s = p.board s) ∧
    (∀ u, ((p.doMove ⟨f, t, .enPassant, pr⟩ g).undoMove ⟨f, t, .enPassant, pr⟩).byTypeBB u = p.byTypeBB u) ∧
    (∀ c, ((p.doMove ⟨f, t, .enPassant, pr⟩ g).undoMove ⟨f, t, .enPassant, pr⟩).byColorBB c = p.byColorBB c) := by
  have hce : makePiece p.sideToMove.flip 1 ≠ 0 := makePiece_ne_zero _ 1 (by omega)
  have hcet : typeOf (makePiece p.sideToMove.flip 1) = 1 := typeOf_makePiece _ 1 (by omega)
  have hcec : colorOf (makePiece p.sideToMove.flip 1) = p.sideToMove.flip :=
    colorOf_makePiece _ 1 (by omega) (by omega)
  have hcape : p.board (((t : Int) - pawnPush p.sideToMove).toNat) ≠ 0 := by
    rw [hcapb]; exact hce
  have hT0f : (p.byTypeBB 0).testBit f = true := (hWF.2.1 f hf64).2 hpc
  have hTPf : (p.byTypeBB (typeOf (p.board f))).testBit f = true := by
    rcases hWF.1 f hf64 with h | h
    · exact absurd h hpc
    · exact ((hWF.2.2.1 f hf64 (typeOf (p.board f)) (by omega) h.1)).2 ⟨hpc, rfl⟩
  have hCPf : (p.byColorBB (colorOf (p.board f))).testBit f = true :=
    (hWF.colorClause hf64 (colorOf (p.board f))).2 ⟨hpc, rfl⟩
  have hPtf : typeOf (p.board f) ≠ 0 := by
    rcases hWF.1 f hf64 with h | h
    · exact absurd h hpc
    · omega
  have hPtf' : (0 : Nat) ≠ typeOf (p.board f) := Ne.symm hPtf
  have hT0e : (p.byTypeBB 0).testBit (((t : Int) - pawnPush p.sideToMove).toNat) = true :=
    (hWF.2.1 _ he64).2 hcape
  have hT1e : (p.byTypeBB 1).testBit (((t : Int) - pawnPush p.sideToMove).toNat) = true := by
    refine (hWF.2.2.1 _ he64 1 (by omega) (by omega)).2 ⟨hcape, ?_⟩
    rw [hcapb, hcet]
  have hCe : (p.byColorBB p.sideToMove.flip).testBit
      (((t : Int) - pawnPush p.sideToMove).toNat) = true := by
    refine (hWF.colorClause he64 _).2 ⟨hcape, ?_⟩
    rw [hcapb, hcec]
  refine ⟨?_, ?_, ?_⟩
  · intro s
    rw [undoMove_board]
    simp only [undoMoveP2, undoMoveP1, doMove_capturedPiece, doMove_sideToMove, Color.flip_flip,
      mtE1, mtE2, if_false, ite_false]
    simp only [moveCaptured, moveT1, moveCapSq, mtE1, mtE2, if_false, ite_false]
    simp only [Position.movePiece, Position.putPiece]
    simp only [doMove_board]
    simp only [doMoveP4, doMoveP3, doMoveP2, doMoveP1, moveCaptured, moveT1, moveCapSq,
      mtE1, mtE2, if_false, ite_false]
    simp only [hce, hcet, if_true, ite_true, if_pos, ne_eq, not_false_eq_true, mtE2, if_false,
      ite_false, and_true, and_false, false_and, true_and, if_neg, reduceIte]
    by_cases h1 : s = t <;> by_cases h2 : s = f <;>
      by_cases h3 : s = ((t : Int) - pawnPush p.sideToMove).toNat <;>
      simp [h1, h2, h3, hft, Ne.symm hft, hef, Ne.symm hef, het, Ne.symm het, hbt, hcapb,
        hce, hcet, Position.movePiece, Position.removePiece, Position.putPiece,
        Function.update_apply, eq_comm]
  · intro u
    rw [show ((p.doMove ⟨f, t, .enPassant, pr⟩ g).undoMove ⟨f, t, .enPassant, pr⟩).byTypeBB
        = (undoMoveP2 (p.doMove ⟨f, t, .enPassant, pr⟩ g) ⟨f, t, .enPassant, pr⟩).byTypeBB from rfl]
    simp only [undoMoveP2, undoMoveP1, doMove_capturedPiece, doMove_sideToMove, Color.flip_flip,
      mtE1, mtE2, if_false, ite_false]
    simp only [moveCaptured, moveT1, moveCapSq, mtE1, mtE2, if_false, ite_false]
    simp only [Position.movePiece, Position.putPiece]
    simp only [doMove_board, doMove_byTypeBB]
    simp only [doMoveP4, doMoveP3, doMoveP2, doMoveP1, moveCaptured, moveT1, moveCapSq,
      mtE1, mtE2, if_false, ite_false]
    simp [hce, hcet, hcapb, Position.movePiece, Position.removePiece, Position.putPiece,
      Function.update_apply, hef, Ne.symm hef, het, Ne.symm het, hft, Ne.symm hft]
    refine Nat.eq_of_testBit_eq fun i => ?_
    by_cases hu0 : u = 0 <;> by_cases hu1 : u = 1 <;>
      by_cases huP : u = typeOf (p.board f) <;>
      by_cases hPT : typeOf (p.board f) = 1 <;>
      by_cases hi1 : i = f <;> by_cases hi2 : i = t <;>
      by_cases hi3 : i = ((t : Int) - pawnPush p.sideToMove).toNat <;>
      first
      | exact absurd (hi1.symm.trans hi2) hft
      | exact absurd (hi3.symm.trans hi1) hef
      | exact absurd (hi3.symm.trans hi2) het
      | simp [hu0, hu1, huP, hPT, hi1, hi2, hi3, Nat.testBit_xor, Nat.testBit_or, testBit_sqBB,
          hft, Ne.symm hft, hef, Ne.symm hef, het, Ne.symm het, hT0f, hTPf, hT0e, hT1e,
          hPtf, hPtf', Nat.or_comm, eq_comm]
  · intro c
    rw [show ((p.doMove ⟨f, t, .enPassant, pr⟩ g).undoMove ⟨f, t, .enPassant, pr⟩).byColorBB
        = (undoMoveP2 (p.doMove ⟨f, t, .enPassant, pr⟩ g) ⟨f, t, .enPassant, pr⟩).byColorBB from rfl]
    simp only [undoMoveP2, undoMoveP1, doMove_capturedPiece, doMove_sideToMove, Color.flip_flip,
      mtE1, mtE2, if_false, ite_false]
    simp only [moveCaptured, moveT1, moveCapSq, mtE1, mtE2, if_false, ite_false]
    simp only [Position.movePiece, Position.putPiece]
    simp only [doMove_board, doMove_byColorBB]
    simp only [doMoveP4, doMoveP3, doMoveP2, doMoveP1, moveCaptured, moveT1, moveCapSq,
      mtE1, mtE2, if_false, ite_false]
    simp [hce, hcet, hcec, hcapb, Position.movePiece, Position.removePiece, Position.putPiece,
      Function.update_apply, hef, Ne.symm hef, het, Ne.symm het, hft, Ne.symm hft]
    refine Nat.eq_of_testBit_eq fun i => ?_
    by_cases hcP : c = colorOf (p.board f) <;>
      by_cases hcE : c = p.sideToMove.flip <;>
      by_cases hCC : colorOf (p.board f) = p.sideToMove.flip <;>
      by_cases hi1 : i = f <;> by_cases hi2 : i = t <;>
      by_cases hi3 : i = ((t : Int) - pawnPush p.sideToMove).toNat <;>
      first
      | exact absurd (hi1.symm.trans hi2) hft
      | exact absurd (hi3.symm.trans hi1) hef
      | exact absurd (hi3.symm.trans hi2) het
      | simp [hcP, hcE, hCC, Ne.symm hCC, hi1, hi2, hi3, Nat.testBit_xor, Nat.testBit_or,
          testBit_sqBB, hft, Ne.symm hft, hef, Ne.symm hef, het, Ne.symm het, hCPf, hCe,
          Nat.or_comm, eq_comm]
      | simp [hcP, hcE, hCC, hi1, hi2, hi3, Nat.testBit_xor, Nat.testBit_or, testBit_sqBB,
          hft, Ne.symm hft, hef, Ne.symm hef, het, Ne.symm het, hCPf, hCe, Nat.or_comm, eq_comm]

end Position

namespace Position

theorem mtP1 : (MoveType.promotion = MoveType.castling) = False := by decide
theorem mtP2 : (MoveType.promotion = MoveType.enPassant) = False := by decide

set_option maxRecDepth 4000 in
set_option maxHeartbeats 3200000 in
theorem roundtrip_promotion (p : Position) (f t pr : Nat) (g : Bool)
    (hWF : WF p) (hf64 : f < 64) (ht64 : t < 64) (hft : f ≠ t)
    (hpf : p.board f = makePiece p.sideToMove 1)
    (hpr2 : 2 ≤ pr) (hpr8 : pr ≤ 5)
    (hxor : t ^^^ f ≠ 16) :
    (∀ s, ((p.doMove ⟨f, t, .promotion, pr⟩ g).undoMove ⟨f, t, .promotion, pr⟩).board s = p.board s) ∧
    (∀ u, ((p.doMove ⟨f, t, .promotion, pr⟩ g).undoMove ⟨f, t, .promotion, pr⟩).byTypeBB u = p.byTypeBB u) ∧
    (∀ c, ((p.doMove ⟨f, t, .promotion, pr⟩ g).undoMove ⟨f, t, .promotion, pr⟩).byColorBB c = p.byColorBB c) := by
  have hpfne : p.board f ≠ 0 := by rw [hpf]; exact makePiece_ne_zero _ 1 (by omega)
  have hpft : typeOf (p.board f) = 1 := by rw [hpf]; exact typeOf_makePiece _ 1 (by omega)
  have hpfc : colorOf (p.board f) = p.sideToMove := by
    rw [hpf]; exact colorOf_makePiece _ 1 (by omega) (by omega)
  have hprT : typeOf (makePiece p.sideToMove pr) = pr := typeOf_makePiece _ pr (by omega)
  have hprC : colorOf (makePiece p.sideToMove pr) = p.sideToMove :=
    colorOf_makePiece _ pr (by omega) (by omega)
  have hprne : makePiece p.sideToMove pr ≠ 0 := makePiece_ne_zero _ pr (by omega)
  have hp1T : typeOf (makePiece p.sideToMove 1) = 1 := typeOf_makePiece _ 1 (by omega)
  have hp1C : colorOf (makePiece p.sideToMove 1) = p.sideToMove :=
    colorOf_makePiece _ 1 (by omega) (by omega)
  have hp1ne : makePiece p.sideToMove 1 ≠ 0 := makePiece_ne_zero _ 1 (by omega)
  have hndp : ¬ moveIsDP p ⟨f, t, .promotion, pr⟩ := by
    intro h
    exact hxor (by simpa [moveIsDP, moveT1, mtP1] using h.1)
  have hne0R : (0 : Nat) ≠ pr := by omega
  have hneR0 : pr ≠ 0 := by omega
  have hne1R : (1 : Nat) ≠ pr := by omega
  have hneR1 : pr ≠ 1 := by omega
  have hT0f : (p.byTypeBB 0).testBit f = true := (hWF.2.1 f hf64).2 hpfne
  have hT1f : (p.byTypeBB 1).testBit f = true := by
    refine (hWF.2.2.1 f hf64 1 (by omega) (by omega)).2 ⟨hpfne, ?_⟩
    rw [hpft]
  have hCf : (p.byColorBB p.sideToMove).testBit f = true := by
    refine (hWF.colorClause hf64 _).2 ⟨hpfne, ?_⟩
    rw [hpfc]
  refine ⟨?_, ?_, ?_⟩
  · intro s
    rw [undoMove_board]
    simp only [undoMoveP2, undoMoveP1, doMove_capturedPiece, doMove_sideToMove, Color.flip_flip,
      mtP1, mtP2, eq_self_iff_true, if_false, ite_false, if_true, ite_true]
    simp only [moveCaptured, moveT1, moveCapSq, mtP1, mtP2, eq_self_iff_true, if_false,
      ite_false, if_true, ite_true]
    simp only [Position.movePiece, Position.putPiece, Position.removePiece]
    simp only [doMove_board]
    simp only [doMoveP4, doMoveP3, doMoveP2, doMoveP1, moveCaptured, moveT1, moveCapSq,
      mtP1, mtP2, if_false, ite_false, hpft, hndp, not_false_eq_true, and_true, true_and,
      and_self, if_true, ite_true, reduceIte]
    by_cases hcap : p.board t = 0
    all_goals
      by_cases h1 : s = t <;> by_cases h2 : s = f <;>
        simp [hcap, h1, h2, hft, Ne.symm hft, hpf, Position.movePiece, Position.removePiece,
          Position.putPiece, Function.update_apply]
  · intro u
    rw [show ((p.doMove ⟨f, t, .promotion, pr⟩ g).undoMove ⟨f, t, .promotion, pr⟩).byTypeBB
        = (undoMoveP2 (p.doMove ⟨f, t, .promotion, pr⟩ g) ⟨f, t, .promotion, pr⟩).byTypeBB from rfl]
    simp only [undoMoveP2, undoMoveP1, doMove_capturedPiece, doMove_sideToMove, Color.flip_flip,
      mtP1, mtP2, eq_self_iff_true, if_false, ite_false, if_true, ite_true]
    simp only [moveCaptured, moveT1, moveCapSq, mtP1, mtP2, eq_self_iff_true, if_false,
      ite_false, if_true, ite_true]
    simp only [Position.movePiece, Position.putPiece, Position.removePiece]
    simp only [doMove_board, doMove_byTypeBB]
    simp only [doMoveP4, doMoveP3, doMoveP2, doMoveP1, moveCaptured, moveT1, moveCapSq,
      mtP1, mtP2, if_false, ite_false, hpft, hndp, not_false_eq_true, and_true, true_and,
      and_self, if_true, ite_true, reduceIte]
    by_cases hcap : p.board t = 0
    · have hT0tf : (p.byTypeBB 0).testBit t = false := by
        cases hb : (p.byTypeBB 0).testBit t
        · rfl
        · exact absurd hcap ((hWF.2.1 t ht64).1 hb)
      have hT1tf : (p.byTypeBB 1).testBit t = false := by
        cases hb : (p.byTypeBB 1).testBit t
        · rfl
        · exact absurd hcap (((hWF.2.2.1 t ht64 1 (by omega) (by omega)).1 hb)).1
      have hTRtf : (p.byTypeBB pr).testBit t = false := by
        cases hb : (p.byTypeBB pr).testBit t
        · rfl
        · exact absurd hcap (((hWF.2.2.1 t ht64 pr (by omega) (by omega)).1 hb)).1
      by_cases hu0 : u = 0 <;> by_cases hu1 : u = 1 <;> by_cases huR : u = pr <;>
        first
        | exact absurd (hu0.symm.trans hu1) (by omega)
        | exact absurd (hu0.symm.trans huR) (by omega)
        | exact absurd (hu1.symm.trans huR) (by omega)
        | (simp [hcap, hu0, hu1, huR, Position.movePiece, Position.removePiece,
             Position.putPiece, Function.update_apply, hft, Ne.symm hft, hpft, hprT, hp1T,
             hprne, hp1ne, hneR0, hne0R, hneR1, hne1R] <;>
           (refine Nat.eq_of_testBit_eq fun i => ?_) <;>
           by_cases hi1 : i = f <;> by_cases hi2 : i = t <;>
           simp [hi1, hi2, Nat.testBit_xor, Nat.testBit_or, testBit_sqBB,
             hft, Ne.symm hft, hT0f, hT1f, hT0tf, hT1tf, hTRtf, Nat.or_comm,
             hneR0, hne0R, hneR1, hne1R])
    · have hT0t : (p.byTypeBB 0).testBit t = true := (hWF.2.1 t ht64).2 hcap
      have hTCt : (p.byTypeBB (typeOf (p.board t))).testBit t = true := by
        rcases hWF.1 t ht64 with h | h
        · exact absurd h hcap
        · exact ((hWF.2.2.1 t ht64 (typeOf (p.board t)) (by omega) h.1)).2 ⟨hcap, rfl⟩
      have hPtt : typeOf (p.board t) ≠ 0 := by
        rcases hWF.1 t ht64 with h | h
        · exact absurd h hcap
        · omega
      rcases eq_or_ne (typeOf (p.board t)) 1 with hCT1 | hCT1
      · rcases eq_or_ne (typeOf (p.board t)) pr with hCTR | hCTR
        · exact absurd (hCT1.symm.trans hCTR) hne1R
        · have hT1t : (p.byTypeBB 1).testBit t = true := hCT1 ▸ hTCt
          have hTRtf : (p.byTypeBB pr).testBit t = false := by
            cases hb : (p.byTypeBB pr).testBit t
            · rfl
            · exact absurd (((hWF.2.2.1 t ht64 pr (by omega) (by omega)).1 hb)).2 hCTR
          by_cases hu0 : u = 0 <;> by_cases hu1 : u = 1 <;> by_cases huR : u = pr <;>
            first
            | exact absurd (hu0.symm.trans hu1) (by omega)
            | exact absurd (hu0.symm.trans huR) (by omega)
            | exact absurd (hu1.symm.trans huR) (by omega)
            | (simp [hcap, hu0, hu1, huR, hCT1, Position.movePiece, Position.removePiece,
                 Position.putPiece, Function.update_apply, hft, Ne.symm hft, hpft, hprT, hp1T,
                 hprne, hp1ne, hneR0, hne0R, hneR1, hne1R] <;>
               (refine Nat.eq_of_testBit_eq fun i => ?_) <;>
               by_cases hi1 : i = f <;> by_cases hi2 : i = t <;>
               simp [hi1, hi2, Nat.testBit_xor, Nat.testBit_or, testBit_sqBB,
                 hft, Ne.symm hft, hT0f, hT1f, hT0t, hT1t, hTRtf, Nat.or_comm,
                 hneR0, hne0R, hneR1, hne1R])
      · rcases eq_or_ne (typeOf (p.board t)) pr with hCTR | hCTR
        · have hTRt : (p.byTypeBB pr).testBit t = true := hCTR ▸ hTCt
          have hT1tf : (p.byTypeBB 1).testBit t = false := by
            cases hb : (p.byTypeBB 1).testBit t
            · rfl
            · exact absurd (((hWF.2.2.1 t ht64 1 (by omega) (by omega)).1 hb)).2 hCT1
          by_cases hu0 : u = 0 <;> by_cases hu1 : u = 1 <;> by_cases huR : u = pr <;>
            first
            | exact absurd (hu0.symm.trans hu1) (by omega)
            | exact absurd (hu0.symm.trans huR) (by omega)
            | exact absurd (hu1.symm.trans huR) (by omega)
            | (simp [hcap, hu0, hu1, huR, hCTR, Position.movePiece, Position.removePiece,
                 Position.putPiece, Function.update_apply, hft, Ne.symm hft, hpft, hprT, hp1T,
                 hprne, hp1ne, hneR0, hne0R, hneR1, hne1R] <;>
               (refine Nat.eq_of_testBit_eq fun i => ?_) <;>
               by_cases hi1 : i = f <;> by_cases hi2 : i = t <;>
               simp [hi1, hi2, Nat.testBit_xor, Nat.testBit_or, testBit_sqBB,
                 hft, Ne.symm hft, hT0f, hT1f, hT0t, hTRt, hT1tf, Nat.or_comm,
                 hneR0, hne0R, hneR1, hne1R])
        · have hT1tf : (p.byTypeBB 1).testBit t = false := by
            cases hb : (p.byTypeBB 1).testBit t
            · rfl
            · exact absurd (((hWF.2.2.1 t ht64 1 (by omega) (by omega)).1 hb)).2 hCT1
          have hTRtf : (p.byTypeBB pr).testBit t = false := by
            cases hb : (p.byTypeBB pr).testBit t
            · rfl
            · exact absurd (((hWF.2.2.1 t ht64 pr (by omega) (by omega)).1 hb)).2 hCTR
          by_cases hu0 : u = 0 <;> by_cases hu1 : u = 1 <;> by_cases huR : u = pr <;>
            by_cases huC : u = typeOf (p.board t) <;>
            first
            | exact absurd (hu0.symm.trans hu1) (by omega)
            | exact absurd (hu0.symm.trans huR) (by omega)
            | exact absurd (hu1.symm.trans huR) (by omega)
            | exact absurd (hu0.symm.trans huC).symm hPtt
            | exact absurd (hu1.symm.trans huC).symm hCT1
            | exact absurd (huR.symm.trans huC).symm hCTR
            | (simp [hcap, hu0, hu1, huR, huC, hPtt, Ne.symm hPtt, hCT1, Ne.symm hCT1,
                 hCTR, Ne.symm hCTR, Position.movePiece, Position.removePiece,
                 Position.putPiece, Function.update_apply, hft, Ne.symm hft, hpft, hprT, hp1T,
                 hprne, hp1ne, hneR0, hne0R, hneR1, hne1R] <;>
               (refine Nat.eq_of_testBit_eq fun i => ?_) <;>
               by_cases hi1 : i = f <;> by_cases hi2 : i = t <;>
               simp [hi1, hi2, Nat.testBit_xor, Nat.testBit_or, testBit_sqBB,
                 hft, Ne.symm hft, hT0f, hT1f, hT0t, hTCt, hT1tf, hTRtf, Nat.or_comm,
                 hneR0, hne0R, hneR1, hne1R])
  · intro c
    rw [show ((p.doMove ⟨f, t, .promotion, pr⟩ g).undoMove ⟨f, t, .promotion, pr⟩).byColorBB
        = (undoMoveP2 (p.doMove ⟨f, t, .promotion, pr⟩ g) ⟨f, t, .promotion, pr⟩).byColorBB from rfl]
    simp only [undoMoveP2, undoMoveP1, doMove_capturedPiece, doMove_sideToMove, Color.flip_flip,
      mtP1, mtP2, eq_self_iff_true, if_false, ite_false, if_true, ite_true]
    simp only [moveCaptured, moveT1, moveCapSq, mtP1, mtP2, eq_self_iff_true, if_false,
      ite_false, if_true, ite_true]
    simp only [Position.movePiece, Position.putPiece, Position.removePiece]
    simp only [doMove_board, doMove_byColorBB]
    simp only [doMoveP4, doMoveP3, doMoveP2, doMoveP1, moveCaptured, moveT1, moveCapSq,
      mtP1, mtP2, if_false, ite_false, hpft, hndp, not_false_eq_true, and_true, true_and,
      and_self, if_true, ite_true, reduceIte]
    by_cases hcap : p.board t = 0
    · have hCtf : ∀ c', (p.byColorBB c').testBit t = false := by
        intro c'
        cases hb : (p.byColorBB c').testBit t
        · rfl
        · exact absurd hcap (((hWF.colorClause ht64 c').1 hb)).1
      by_cases hcU : c = p.sideToMove <;>
        (simp [hcap, hcU, Position.movePiece, Position.removePiece, Position.putPiece,
           Function.update_apply, hft, Ne.symm hft, hpfc, hprC, hp1C, hprne, hp1ne] <;>
         (refine Nat.eq_of_testBit_eq fun i => ?_) <;>
         by_cases hi1 : i = f <;> by_cases hi2 : i = t <;>
         simp [hi1, hi2, Nat.testBit_xor, Nat.testBit_or, testBit_sqBB,
           hft, Ne.symm hft, hCf, hCtf, Nat.or_comm])
    · have hCCt : (p.byColorBB (colorOf (p.board t))).testBit t = true :=
        (hWF.colorClause ht64 (colorOf (p.board t))).2 ⟨hcap, rfl⟩
      rcases eq_or_ne (colorOf (p.board t)) p.sideToMove with hCC | hCC
      · have hCst : (p.byColorBB p.sideToMove).testBit t = true := hCC ▸ hCCt
        by_cases hcU : c = p.sideToMove <;>
          (simp [hcap, hcU, hCC, Position.movePiece, Position.removePiece, Position.putPiece,
             Function.update_apply, hft, Ne.symm hft, hpfc, hprC, hp1C, hprne, hp1ne] <;>
           (refine Nat.eq_of_testBit_eq fun i => ?_) <;>
           by_cases hi1 : i = f <;> by_cases hi2 : i = t <;>
           simp [hi1, hi2, Nat.testBit_xor, Nat.testBit_or, testBit_sqBB,
             hft, Ne.symm hft, hCf, hCst, Nat.or_comm])
      · have hCstf : (p.byColorBB p.sideToMove).testBit t = false := by
          cases hb : (p.byColorBB p.sideToMove).testBit t
          · rfl
          · exact absurd (((hWF.colorClause ht64 p.sideToMove).1 hb)).2 hCC
        by_cases hcU : c = p.sideToMove <;> by_cases hcC : c = colorOf (p.board t) <;>
          first
          | exact absurd (hcU.symm.trans hcC).symm hCC
          | (simp [hcap, hcU, hcC, hCC, Ne.symm hCC, Position.movePiece, Position.removePiece,
               Position.putPiece, Function.update_apply, hft, Ne.symm hft, hpfc, hprC, hp1C,
               hprne, hp1ne] <;>
             (refine Nat.eq_of_testBit_eq fun i => ?_) <;>
             by_cases hi1 : i = f <;> by_cases hi2 : i = t <;>
             simp [hi1, hi2, Nat.testBit_xor, Nat.testBit_or, testBit_sqBB,
               hft, Ne.symm hft, hCf, hCCt, hCstf, Nat.or_comm])

end Position

namespace Position

theorem mtC1 : (MoveType.castling = MoveType.promotion) = False := by decide
theorem mtC2 : (MoveType.castling = MoveType.enPassant) = False := by decide

set_option maxRecDepth 4000 in
set_option maxHeartbeats 3200000 in
theorem roundtrip_castling (p : Position) (f t kto rto : Nat) (pr : Nat) (g : Bool)
    (hWF : WF p) (hf64 : f < 64) (ht64 : t < 64) (hft : f ≠ t)
    (hK : kto = relativeSquare p.sideToMove (if f < t then 6 else 2))
    (hR : rto = relativeSquare p.sideToMove (if f < t then 5 else 3))
    (hbf : p.board f = makePiece p.sideToMove 6)
    (hbt : p.board t = makePiece p.sideToMove 4)
    (hbK : p.board kto = 0) (hbR : p.board rto = 0)
    (hK64 : kto < 64) (hR64 : rto < 64)
    (hKf : kto ≠ f) (hKt : kto ≠ t) (hRf : rto ≠ f) (hRt : rto ≠ t) (hKR : kto ≠ rto) :
    (∀ s, ((p.doMove ⟨f, t, .castling, pr⟩ g).undoMove ⟨f, t, .castling, pr⟩).board s = p.board s) ∧
    (∀ u, ((p.doMove ⟨f, t, .castling, pr⟩ g).undoMove ⟨f, t, .castling, pr⟩).byTypeBB u = p.byTypeBB u) ∧
    (∀ c, ((p.doMove ⟨f, t, .castling, pr⟩ g).undoMove ⟨f, t, .castling, pr⟩).byColorBB c = p.byColorBB c) := by
  subst hK
  subst hR
  have h6T : typeOf (makePiece p.sideToMove 6) = 6 := typeOf_makePiece _ 6 (by omega)
  have h6C : colorOf (makePiece p.sideToMove 6) = p.sideToMove :=
    colorOf_makePiece _ 6 (by omega) (by omega)
  have h6ne : makePiece p.sideToMove 6 ≠ 0 := makePiece_ne_zero _ 6 (by omega)
  have h4T : typeOf (makePiece p.sideToMove 4) = 4 := typeOf_makePiece _ 4 (by omega)
  have h4C : colorOf (makePiece p.sideToMove 4) = p.sideToMove :=
    colorOf_makePiece _ 4 (by omega) (by omega)
  have h4ne : makePiece p.sideToMove 4 ≠ 0 := makePiece_ne_zero _ 4 (by omega)
  have hbfne : p.board f ≠ 0 := by rw [hbf]; exact h6ne
  have hbtne : p.board t ≠ 0 := by rw [hbt]; exact h4ne
  have hpf6 : typeOf (p.board f) = 6 := by rw [hbf, h6T]
  have hpt4 : typeOf (p.board t) = 4 := by rw [hbt, h4T]
  have hpf1 : ¬ typeOf (p.board f) = 1 := by rw [hpf6]; omega
  have hcf : colorOf (p.board f) = p.sideToMove := by rw [hbf, h6C]
  have hct : colorOf (p.board t) = p.sideToMove := by rw [hbt, h4C]
  have hT0f : (p.byTypeBB 0).testBit f = true := (hWF.2.1 f hf64).2 hbfne
  have hT6f : (p.byTypeBB 6).testBit f = true := by
    refine (hWF.2.2.1 f hf64 6 (by omega) (by omega)).2 ⟨hbfne, hpf6⟩
  have hCf : (p.byColorBB p.sideToMove).testBit f = true :=
    (hWF.colorClause hf64 _).2 ⟨hbfne, hcf⟩
  have hT0t : (p.byTypeBB 0).testBit t = true := (hWF.2.1 t ht64).2 hbtne
  have hT4t : (p.byTypeBB 4).testBit t = true := by
    refine (hWF.2.2.1 t ht64 4 (by omega) (by omega)).2 ⟨hbtne, hpt4⟩
  have hCt : (p.byColorBB p.sideToMove).testBit t = true :=
    (hWF.colorClause ht64 _).2 ⟨hbtne, hct⟩
  have hTf : ∀ u', u' < 7 → (p.byTypeBB u').testBit (relativeSquare p.sideToMove (if f < t then 6 else 2)) = false := by
    intro u' h7
    cases hb : (p.byTypeBB u').testBit (relativeSquare p.sideToMove (if f < t then 6 else 2))
    · rfl
    · rcases Nat.eq_zero_or_pos u' with h0 | h1
      · subst h0; exact absurd hbK ((hWF.2.1 (relativeSquare p.sideToMove (if f < t then 6 else 2)) hK64).1 hb)
      · exact absurd hbK (((hWF.2.2.1 (relativeSquare p.sideToMove (if f < t then 6 else 2)) hK64 u' h7 h1).1 hb)).1
  have hTr : ∀ u', u' < 7 → (p.byTypeBB u').testBit (relativeSquare p.sideToMove (if f < t then 5 else 3)) = false := by
    intro u' h7
    cases hb : (p.byTypeBB u').testBit (relativeSquare p.sideToMove (if f < t then 5 else 3))
    · rfl
    · rcases Nat.eq_zero_or_pos u' with h0 | h1
      · subst h0; exact absurd hbR ((hWF.2.1 (relativeSquare p.sideToMove (if f < t then 5 else 3)) hR64).1 hb)
      · exact absurd hbR (((hWF.2.2.1 (relativeSquare p.sideToMove (if f < t then 5 else 3)) hR64 u' h7 h1).1 hb)).1
  have hT0K : (p.byTypeBB 0).testBit (relativeSquare p.sideToMove (if f < t then 6 else 2)) = false := hTf 0 (by omega)
  have hT6K : (p.byTypeBB 6).testBit (relativeSquare p.sideToMove (if f < t then 6 else 2)) = false := hTf 6 (by omega)
  have hT4K : (p.byTypeBB 4).testBit (relativeSquare p.sideToMove (if f < t then 6 else 2)) = false := hTf 4 (by omega)
  have hT0R : (p.byTypeBB 0).testBit (relativeSquare p.sideToMove (if f < t then 5 else 3)) = false := hTr 0 (by omega)
  have hT6R : (p.byTypeBB 6).testBit (relativeSquare p.sideToMove (if f < t then 5 else 3)) = false := hTr 6 (by omega)
  have hT4R : (p.byTypeBB 4).testBit (relativeSquare p.sideToMove (if f < t then 5 else 3)) = false := hTr 4 (by omega)
  have hCK : ∀ c', (p.byColorBB c').testBit (relativeSquare p.sideToMove (if f < t then 6 else 2)) = false := by
    intro c'
    cases hb : (p.byColorBB c').testBit (relativeSquare p.sideToMove (if f < t then 6 else 2))
    · rfl
    · exact absurd hbK (((hWF.colorClause hK64 c').1 hb)).1
  have hCR : ∀ c', (p.byColorBB c').testBit (relativeSquare p.sideToMove (if f < t then 5 else 3)) = false := by
    intro c'
    cases hb : (p.byColorBB c').testBit (relativeSquare p.sideToMove (if f < t then 5 else 3))
    · rfl
    · exact absurd hbR (((hWF.colorClause hR64 c').1 hb)).1
  refine ⟨?_, ?_, ?_⟩
  · intro s
    rw [undoMove_board]
    simp only [undoMoveP2, undoMoveP1, doMove_capturedPiece, doMove_sideToMove, Color.flip_flip,
      mtC1, mtC2, eq_self_iff_true, if_false, ite_false, if_true, ite_true]
    simp only [Position.doCastling, Position.movePiece, Position.putPiece, Position.removePiece,
      Bool.false_eq_true, Bool.true_eq_false, if_false, ite_false, if_true, ite_true]
    simp only [doMove_board]
    simp only [doMoveP4, doMoveP3, doMoveP2, doMoveP1, moveCaptured, moveT1, moveCapSq,
      mtC1, mtC2, eq_self_iff_true, if_false, ite_false, if_true, ite_true, hpf1,
      not_false_eq_true, false_and, and_false, reduceIte, ne_eq, not_true_eq_false]
    simp only [Position.doCastling, Position.movePiece, Position.putPiece, Position.removePiece,
      Bool.false_eq_true, Bool.true_eq_false, if_false, ite_false, if_true, ite_true]
    by_cases h1 : s = f <;> by_cases h2 : s = t <;>
      by_cases h3 : s = relativeSquare p.sideToMove (if f < t then 6 else 2) <;>
      by_cases h4 : s = relativeSquare p.sideToMove (if f < t then 5 else 3) <;>
      first
      | exact absurd (h1.symm.trans h2) hft
      | exact absurd (h3.symm.trans h1) hKf
      | exact absurd (h3.symm.trans h2) hKt
      | exact absurd (h4.symm.trans h1) hRf
      | exact absurd (h4.symm.trans h2) hRt
      | exact absurd (h3.symm.trans h4) hKR
      | simp [h1, h2, h3, h4, hft, Ne.symm hft, hKf, Ne.symm hKf, hKt, Ne.symm hKt,
          hRf, Ne.symm hRf, hRt, Ne.symm hRt, hKR, Ne.symm hKR,
          hbf, hbt, hbK, hbR, Function.update_apply]
  · intro u
    rw [show ((p.doMove ⟨f, t, .castling, pr⟩ g).undoMove ⟨f, t, .castling, pr⟩).byTypeBB
        = (undoMoveP2 (p.doMove ⟨f, t, .castling, pr⟩ g) ⟨f, t, .castling, pr⟩).byTypeBB from rfl]
    simp only [undoMoveP2, undoMoveP1, doMove_capturedPiece, doMove_sideToMove, Color.flip_flip,
      mtC1, mtC2, eq_self_iff_true, if_false, ite_false, if_true, ite_true]
    simp only [Position.doCastling, Position.movePiece, Position.putPiece, Position.removePiece,
      Bool.false_eq_true, Bool.true_eq_false, if_false, ite_false, if_true, ite_true]
    simp only [doMove_board, doMove_byTypeBB]
    simp only [doMoveP4, doMoveP3, doMoveP2, doMoveP1, moveCaptured, moveT1, moveCapSq,
      mtC1, mtC2, eq_self_iff_true, if_false, ite_false, if_true, ite_true, hpf1,
      not_false_eq_true, false_and, and_false, reduceIte, ne_eq, not_true_eq_false]
    simp only [Position.doCastling, Position.movePiece, Position.putPiece, Position.removePiece,
      Bool.false_eq_true, Bool.true_eq_false, if_false, ite_false, if_true, ite_true]
    by_cases hu0 : u = 0 <;> by_cases hu6 : u = 6 <;> by_cases hu4 : u = 4 <;>
      first
      | exact absurd (hu0.symm.trans hu6) (by omega)
      | exact absurd (hu0.symm.trans hu4) (by omega)
      | exact absurd (hu6.symm.trans hu4) (by omega)
      | (simp [hu0, hu6, hu4, hbf, hbt, hbK, hbR, h6T, h4T, h6ne, h4ne,
           Function.update_apply, hft, Ne.symm hft, hKf, Ne.symm hKf, hKt, Ne.symm hKt,
           hRf, Ne.symm hRf, hRt, Ne.symm hRt, hKR, Ne.symm hKR] <;>
         (refine Nat.eq_of_testBit_eq fun i => ?_) <;>
         by_cases hi1 : i = f <;> by_cases hi2 : i = t <;>
         by_cases hi3 : i = relativeSquare p.sideToMove (if f < t then 6 else 2) <;>
         by_cases hi4 : i = relativeSquare p.sideToMove (if f < t then 5 else 3) <;>
         first
         | exact absurd (hi1.symm.trans hi2) hft
         | exact absurd (hi3.symm.trans hi1) hKf
         | exact absurd (hi3.symm.trans hi2) hKt
         | exact absurd (hi4.symm.trans hi1) hRf
         | exact absurd (hi4.symm.trans hi2) hRt
         | exact absurd (hi3.symm.trans hi4) hKR
         | simp [hi1, hi2, hi3, hi4, Nat.testBit_xor, Nat.testBit_or, testBit_sqBB,
             hft, Ne.symm hft, hKf, Ne.symm hKf, hKt, Ne.symm hKt, hRf, Ne.symm hRf,
             hRt, Ne.symm hRt, hKR, Ne.symm hKR, hT0f, hT6f, hT0t, hT4t,
             hT0K, hT6K, hT4K, hT0R, hT6R, hT4R, Nat.or_comm])
  · intro c
    rw [show ((p.doMove ⟨f, t, .castling, pr⟩ g).undoMove ⟨f, t, .castling, pr⟩).byColorBB
        = (undoMoveP2 (p.doMove ⟨f, t, .castling, pr⟩ g) ⟨f, t, .castling, pr⟩).byColorBB from rfl]
    simp only [undoMoveP2, undoMoveP1, doMove_capturedPiece, doMove_sideToMove, Color.flip_flip,
      mtC1, mtC2, eq_self_iff_true, if_false, ite_false, if_true, ite_true]
    simp only [Position.doCastling, Position.movePiece, Position.putPiece, Position.removePiece,
      Bool.false_eq_true, Bool.true_eq_false, if_false, ite_false, if_true, ite_true]
    simp only [doMove_board, doMove_byColorBB]
    simp only [doMoveP4, doMoveP3, doMoveP2, doMoveP1, moveCaptured, moveT1, moveCapSq,
      mtC1, mtC2, eq_self_iff_true, if_false, ite_false, if_true, ite_true, hpf1,
      not_false_eq_true, false_and, and_false, reduceIte, ne_eq, not_true_eq_false]
    simp only [Position.doCastling, Position.movePiece, Position.putPiece, Position.removePiece,
      Bool.false_eq_true, Bool.true_eq_false, if_false, ite_false, if_true, ite_true]
    by_cases hcU : c = p.sideToMove <;>
      (simp [hcU, hbf, hbt, hbK, hbR, h6C, h4C, h6ne, h4ne,
         Function.update_apply, hft, Ne.symm hft, hKf, Ne.symm hKf, hKt, Ne.symm hKt,
         hRf, Ne.symm hRf, hRt, Ne.symm hRt, hKR, Ne.symm hKR] <;>
       (refine Nat.eq_of_testBit_eq fun i => ?_) <;>
       by_cases hi1 : i = f <;> by_cases hi2 : i = t <;>
       by_cases hi3 : i = relativeSquare p.sideToMove (if f < t then 6 else 2) <;>
       by_cases hi4 : i = relativeSquare p.sideToMove (if f < t then 5 else 3) <;>
       first
       | exact absurd (hi1.symm.trans hi2) hft
       | exact absurd (hi3.symm.trans hi1) hKf
       | exact absurd (hi3.symm.trans hi2) hKt
       | exact absurd (hi4.symm.trans hi1) hRf
       | exact absurd (hi4.symm.trans hi2) hRt
       | exact absurd (hi3.symm.trans hi4) hKR
       | simp [hi1, hi2, hi3, hi4, Nat.testBit_xor, Nat.testBit_or, testBit_sqBB,
           hft, Ne.symm hft, hKf, Ne.symm hKf, hKt, Ne.symm hKt, hRf, Ne.symm hRf,
           hRt, Ne.symm hRt, hKR, Ne.symm hKR, hCf, hCt, hCK, hCR, Nat.or_comm])

end Position

namespace Position

/-- The legality preconditions of do_move that the roundtrip relies on,
per move type: the moved piece and (for the special types) the capture
square, promotion rank pattern, and castling geometry of the source's
move generator.  Chess960 castling overlaps (king moving onto its own
origin) are outside this predicate. -/
def MovePre (p : Position) (m : Move) : Prop :=
  m.fromSq < 64 ∧ m.toSq < 64 ∧ m.fromSq ≠ m.toSq ∧
  (match m.mtype with
    | .normal => p.board m.fromSq ≠ 0
    | .enPassant =>
        p.board m.fromSq ≠ 0 ∧ p.board m.toSq = 0 ∧
        p.board (((m.toSq : Int) - pawnPush p.sideToMove).toNat)
          = makePiece p.sideToMove.flip 1 ∧
        ((m.toSq : Int) - pawnPush p.sideToMove).toNat < 64 ∧
        ((m.toSq : Int) - pawnPush p.sideToMove).toNat ≠ m.fromSq ∧
        ((m.toSq : Int) - pawnPush p.sideToMove).toNat ≠ m.toSq
    | .promotion =>
        p.board m.fromSq = makePiece p.sideToMove 1 ∧
        2 ≤ m.promo ∧ m.promo ≤ 5 ∧ m.toSq ^^^ m.fromSq ≠ 16
    | .castling =>
        p.board m.fromSq = makePiece p.sideToMove 6 ∧
        p.board m.toSq = makePiece p.sideToMove 4 ∧
        p.board (relativeSquare p.sideToMove (if m.fromSq < m.toSq then 6 else 2)) = 0 ∧
        p.board (relativeSquare p.sideToMove (if m.fromSq < m.toSq then 5 else 3)) = 0 ∧
        relativeSquare p.sideToMove (if m.fromSq < m.toSq then 6 else 2) < 64 ∧
        relativeSquare p.sideToMove (if m.fromSq < m.toSq then 5 else 3) < 64 ∧
        relativeSquare p.sideToMove (if m.fromSq < m.toSq then 6 else 2) ≠ m.fromSq ∧
        relativeSquare p.sideToMove (if m.fromSq < m.toSq then 6 else 2) ≠ m.toSq ∧
        relativeSquare p.sideToMove (if m.fromSq < m.toSq then 5 else 3) ≠ m.fromSq ∧
        relativeSquare p.sideToMove (if m.fromSq < m.toSq then 5 else 3) ≠ m.toSq ∧
        relativeSquare p.sideToMove (if m.fromSq < m.toSq then 6 else 2)
          ≠ relativeSquare p.sideToMove (if m.fromSq < m.toSq then 5 else 3))

instance (p : Position) (m : Move) : Decidable (MovePre p m) := by
  obtain ⟨f, t, mt, pr⟩ := m
  cases mt <;> (unfold MovePre; dsimp only) <;> infer_instance

end Position

namespace Position

theorem roundtrip_side (p : Position) (m : Move) (g : Bool) :
    ((p.doMove m g).undoMove m).sideToMove = p.sideToMove := by
  rw [show ((p.doMove m g).undoMove m).sideToMove = (p.doMove m g).sideToMove.flip from rfl,
    doMove_sideToMove, Color.flip_flip]

theorem roundtrip_st (p : Position) (m : Move) (g : Bool) :
    ((p.doMove m g).undoMove m).st = p.st := rfl

end Position

namespace Position

/-- C1: do_move followed immediately by undo_move restores the exact prior
state: the occupant of every square, every piece-type and color bitboard,
the side to move, the Zobrist key, and the castling rights, for every
well-formed position and every move satisfying the per-type legality
preconditions MovePre. -/
theorem doMove_undoMove_restores (p : Position) (m : Move) (g : Bool)
    (hWF : WF p) (hpre : MovePre p m) :
    (∀ s, ((p.doMove m g).undoMove m).board s = p.board s) ∧
    (∀ u, ((p.doMove m g).undoMove m).byTypeBB u = p.byTypeBB u) ∧
    (∀ c, ((p.doMove m g).undoMove m).byColorBB c = p.byColorBB c) ∧
    ((p.doMove m g).undoMove m).sideToMove = p.sideToMove ∧
    ((p.doMove m g).undoMove m).st.key = p.st.key ∧
    ((p.doMove m g).undoMove m).st.castlingRights = p.st.castlingRights := by
  obtain ⟨f, t, mt, pr⟩ := m
  obtain ⟨hf64, ht64, hft, hrest⟩ := hpre
  cases mt
  case normal =>
    obtain ⟨hb, hty, hco⟩ := roundtrip_normal p f t pr g hWF hf64 ht64 hft hrest
    exact ⟨hb, hty, hco, roundtrip_side p _ g, by rw [roundtrip_st], by rw [roundtrip_st]⟩
  case enPassant =>
    obtain ⟨h1, h2, h3, h4, h5, h6⟩ := hrest
    obtain ⟨hb, hty, hco⟩ := roundtrip_enpassant p f t pr g hWF hf64 ht64 hft h1 h2 h3 h4 h5 h6
    exact ⟨hb, hty, hco, roundtrip_side p _ g, by rw [roundtrip_st], by rw [roundtrip_st]⟩
  case promotion =>
    obtain ⟨h1, h2, h3, h4⟩ := hrest
    obtain ⟨hb, hty, hco⟩ := roundtrip_promotion p f t pr g hWF hf64 ht64 hft h1 h2 h3 h4
    exact ⟨hb, hty, hco, roundtrip_side p _ g, by rw [roundtrip_st], by rw [roundtrip_st]⟩
  case castling =>
    obtain ⟨h1, h2, h3, h4, h5, h6, h7, h8, h9, h10, h11⟩ := hrest
    obtain ⟨hb, hty, hco⟩ := roundtrip_castling p f t _ _ pr g hWF hf64 ht64 hft rfl rfl
      h1 h2 h3 h4 h5 h6 h7 h8 h9 h10 h11
    exact ⟨hb, hty, hco, roundtrip_side p _ g, by rw [roundtrip_st], by rw [roundtrip_st]⟩

end Position

namespace Position

/-- A three-piece position (white Ke1, Rh1; black Ke8) used to witness the
do/undo roundtrip on the concrete rook move h1-h4. -/
def c1Pos : Position := mkPos [(4, 6), (7, 4), (60, 14)] .white [] none 0 0

theorem doMove_undoMove_restores_witness :
    WF c1Pos ∧ MovePre c1Pos ⟨7, 31, .normal, 0⟩ ∧
    (∀ s, ((c1Pos.doMove ⟨7, 31, .normal, 0⟩ false).undoMove ⟨7, 31, .normal, 0⟩).board s
      = c1Pos.board s) :=
  ⟨by decide, by decide,
    fun s => (doMove_undoMove_restores c1Pos ⟨7, 31, .normal, 0⟩ false
      (by decide) (by decide)).1 s⟩

end Position


/-! ### C2: the incremental key invariant -/

theorem Zpsq_zero (s : Nat) : Zpsq 0 s = 0 := rfl

theorem xor_self_left (a b : Nat) : a ^^^ (a ^^^ b) = b := by
  rw [← Nat.xor_assoc, Nat.xor_self, Nat.zero_xor]

theorem foldl_xor_shift (f : Nat → Nat) (l : List Nat) (a : Nat) :
    l.foldl (fun k t => k ^^^ f t) a = a ^^^ l.foldl (fun k t => k ^^^ f t) 0 := by
  induction l generalizing a with
  | nil => simp
  | cons x xs ih =>
    simp only [List.foldl_cons]
    rw [ih, ih (0 ^^^ f x)]
    simp [Nat.xor_assoc]

theorem range_xor_congr (c c' : Nat → Nat) (n : Nat) (h : ∀ t, t < n → c t = c' t) :
    (List.range n).foldl (fun k t => k ^^^ c t) 0
      = (List.range n).foldl (fun k t => k ^^^ c' t) 0 := by
  induction n with
  | zero => rfl
  | succ m ih =>
    rw [List.range_succ, List.foldl_append, List.foldl_append]
    simp only [List.foldl_cons, List.foldl_nil]
    rw [ih (fun t ht => h t (by omega)), h m (by omega)]

theorem range_xor_update (F : Nat → Nat → Nat) (b : Nat → Nat) (s v : Nat) (n : Nat)
    (hs : s < n) :
    (List.range n).foldl (fun k t => k ^^^ F (Function.update b s v t) t) 0
      = (List.range n).foldl (fun k t => k ^^^ F (b t) t) 0 ^^^ F (b s) s ^^^ F v s := by
  induction n with
  | zero => omega
  | succ m ih =>
    rw [List.range_succ, List.foldl_append, List.foldl_append]
    simp only [List.foldl_cons, List.foldl_nil]
    rcases eq_or_ne s m with rfl | hsm
    · rw [range_xor_congr (fun t => F (Function.update b s v t) t) (fun t => F (b t) t) s
        (fun t ht => by
          show F (Function.update b s v t) t = F (b t) t
          rw [Function.update_noteq (by omega)])]
      rw [Function.update_same]
      simp [Nat.xor_assoc, Nat.xor_comm, xorLeftComm, xor_self_left, Nat.xor_self,
        Nat.xor_zero, Nat.zero_xor]
    · rw [ih (by omega), Function.update_noteq (Ne.symm hsm)]
      simp [Nat.xor_assoc, Nat.xor_comm, xorLeftComm, xor_self_left, Nat.xor_self,
        Nat.xor_zero, Nat.zero_xor]

/-- boardKey of a one-square update: the old and the new occupant keys
are toggled. -/
theorem boardKey_update (b : Nat → Nat) (s v : Nat) (hs : s < 64) :
    boardKey (Function.update b s v) = boardKey b ^^^ Zpsq (b s) s ^^^ Zpsq v s :=
  range_xor_update Zpsq b s v 64 hs

theorem boardKey_congr (b b' : Nat → Nat) (h : ∀ t, t < 64 → b t = b' t) :
    boardKey b = boardKey b' :=
  range_xor_congr (fun t => Zpsq (b t) t) (fun t => Zpsq (b' t) t) 64
    (fun t ht => by
      show Zpsq (b t) t = Zpsq (b' t) t
      rw [h t ht])

namespace Position

/-- The key component of the set_state() piece loop is the filtered board
fold. -/
theorem setStatePieceLoop_fst (p : Position) :
    (setStatePieceLoop p).1
      = (List.range 64).foldl
          (fun k s => k ^^^ (if p.pieces.testBit s then Zpsq (p.board s) s else 0)) 0 := by
  have H : ∀ (l : List Nat) (acc : Nat × Nat × Int × Int),
      (l.foldl
        (fun acc s =>
          if p.pieces.testBit s then
            let pc := p.board s
            let acc1 := (acc.1 ^^^ Zpsq pc s, acc.2)
            if typeOf pc = 1 then
              (acc1.1, acc1.2.1 ^^^ Zpsq pc s, acc1.2.2)
            else if typeOf pc ≠ 6 then
              if colorOf pc = .white then
                (acc1.1, acc1.2.1, acc1.2.2.1 + pieceValueMg pc, acc1.2.2.2)
              else
                (acc1.1, acc1.2.1, acc1.2.2.1, acc1.2.2.2 + pieceValueMg pc)
            else acc1
          else acc) acc).1
      = l.foldl (fun k s => k ^^^ (if p.pieces.testBit s then Zpsq (p.board s) s else 0))
          acc.1 := by
    intro l
    induction l with
    | nil => intro acc; rfl
    | cons x xs ih =>
      intro acc
      simp only [List.foldl_cons]
      rw [ih]
      by_cases hx : p.pieces.testBit x <;>
        by_cases h1 : typeOf (p.board x) = 1 <;>
        by_cases h6 : typeOf (p.board x) = 6 <;>
        by_cases hw : colorOf (p.board x) = Color.white <;>
        simp [hx, h1, h6, hw]
  unfold setStatePieceLoop
  rw [H]

/-- Under WF the filtered fold equals the plain board fold (empty squares
contribute the zero row). -/
theorem filtered_boardKey (p : Position) (hWF : WF p) :
    (List.range 64).foldl
        (fun k s => k ^^^ (if p.pieces.testBit s then Zpsq (p.board s) s else 0)) 0
      = boardKey p.board := by
  unfold boardKey
  refine range_xor_congr _ _ 64 fun t ht => ?_
  by_cases hb : p.pieces.testBit t
  · rw [if_pos hb]
  · rw [if_neg hb]
    have h0 : p.board t = 0 := by
      by_contra hne
      exact hb ((hWF.2.1 t ht).2 hne)
    rw [h0, Zpsq_zero]

/-- Position::set_state() establishes the from-scratch key equation. -/
theorem setState_key (p : Position) (hWF : WF p) :
    (p.setState).key = scratchKey { p with st := p.setState } := by
  have hep : ({ p with st := p.setState } : Position).st.epSquare = p.st.epSquare := rfl
  have hcr : ({ p with st := p.setState } : Position).st.castlingRights
      = p.st.castlingRights := rfl
  have hkey : (p.setState).key
      = (match p.st.epSquare with
          | some ep => (setStatePieceLoop p).1 ^^^ Zenpassant (fileOf ep)
          | none => (setStatePieceLoop p).1) ^^^
        (if p.sideToMove = .black then Zside else 0) ^^^
        Zcastling p.st.castlingRights := by
    show (let k0 := (setStatePieceLoop p).1
      let k1 := match p.st.epSquare with
        | some ep => k0 ^^^ Zenpassant (fileOf ep)
        | none => k0
      let k2 := if p.sideToMove = .black then k1 ^^^ Zside else k1
      k2 ^^^ Zcastling p.st.castlingRights) = _
    rcases p.st.epSquare with _ | e <;> by_cases hs : p.sideToMove = .black <;>
      simp [hs, Nat.xor_assoc, Nat.xor_comm, xorLeftComm]
  rw [hkey, setStatePieceLoop_fst, filtered_boardKey p hWF]
  show _ = scratchKey { p with st := p.setState }
  unfold scratchKey
  rw [hep, hcr]
  rcases p.st.epSquare with _ | e <;> by_cases hs : p.sideToMove = .black <;>
    simp [hs, Nat.xor_assoc, Nat.xor_comm, xorLeftComm]

end Position


namespace Position

/-- The key bookkeeping of do_move, written as one expression: mirrors the
k0..k6 chain of the source line by line. -/
def moveKey (p : Position) (m : Move) : Nat :=
  let us := p.sideToMove
  let f := m.fromSq
  let t := m.toSq
  let pc := p.board f
  let k0 := p.st.key ^^^ Zside
  let isCast := m.mtype = .castling
  let castRes := p.doCastling true us f t
  let k1 := if isCast then
      k0 ^^^ Zpsq (p.board t) castRes.2.2.1 ^^^ Zpsq (p.board t) castRes.2.2.2
    else k0
  let captured := moveCaptured p m
  let t1 := moveT1 p m
  let capsq := moveCapSq p m
  let k2 := if captured ≠ 0 then k1 ^^^ Zpsq captured capsq else k1
  let k3 := k2 ^^^ Zpsq pc f ^^^ Zpsq pc t1
  let k4 := match p.st.epSquare with
    | some ep => k3 ^^^ Zenpassant (fileOf ep)
    | none => k3
  let maskFT := p.castlingRightsMask f ||| p.castlingRightsMask t1
  let rightsChange := p.st.castlingRights ≠ 0 ∧ maskFT ≠ 0
  let newRights := p.st.castlingRights &&& bbNot maskFT
  let k5 := if rightsChange then
      k4 ^^^ Zcastling p.st.castlingRights ^^^ Zcastling newRights
    else k4
  let epsqNew := moveEpNew p m
  let isDP := moveIsDP p m
  let isPromo := m.mtype = .promotion
  let promo := makePiece us m.promo
  if typeOf pc = 1 then
    if isDP then k5 ^^^ Zenpassant (fileOf epsqNew)
    else if isPromo then k5 ^^^ Zpsq pc t1 ^^^ Zpsq promo t1
    else k5
  else k5

theorem doMove_key (p : Position) (m : Move) (g : Bool) :
    (p.doMove m g).st.key = moveKey p m := by
  unfold doMove moveKey setCheckInfo
  simp only [apply_ite StateInfo.epSquare, apply_ite StateInfo.castlingRights, ite_self]

/-- The en-passant square field after do_move: set behind a double push,
cleared otherwise. -/
def moveEp (p : Position) (m : Move) : Option Nat :=
  if typeOf (p.board m.fromSq) = 1 ∧ moveIsDP p m then some (moveEpNew p m) else none

theorem doMove_epSquare (p : Position) (m : Move) (g : Bool) :
    (p.doMove m g).st.epSquare = moveEp p m := by
  unfold doMove moveEp setCheckInfo
  simp only [apply_ite StateInfo.epSquare, ite_self]

/-- The castling-rights field after do_move. -/
def moveRights (p : Position) (m : Move) : Nat :=
  if p.st.castlingRights ≠ 0 ∧
      (p.castlingRightsMask m.fromSq ||| p.castlingRightsMask (moveT1 p m)) ≠ 0 then
    p.st.castlingRights &&& bbNot (p.castlingRightsMask m.fromSq
      ||| p.castlingRightsMask (moveT1 p m))
  else p.st.castlingRights

theorem doMove_castlingRights (p : Position) (m : Move) (g : Bool) :
    (p.doMove m g).st.castlingRights = moveRights p m := by
  unfold doMove moveRights setCheckInfo
  simp only [apply_ite StateInfo.castlingRights, ite_self]

end Position



namespace Position

theorem boardKey_normal (p : Position) (f t pr : Nat)
    (hf64 : f < 64) (ht64 : t < 64) (hft : f ≠ t) :
    boardKey (doMoveP4 p ⟨f, t, .normal, pr⟩).board
      = boardKey p.board ^^^ Zpsq (p.board t) t ^^^ Zpsq (p.board f) f
        ^^^ Zpsq (p.board f) t := by
  simp only [doMoveP4, doMoveP3, doMoveP2, doMoveP1, moveCaptured, moveT1, moveCapSq,
    mtF1, mtF2, mtF3, if_false, ite_false, and_false, false_and, reduceIte,
    not_false_eq_true, if_true, ite_true, ne_eq]
  by_cases hcap : p.board t = 0
  · simp only [hcap, ne_eq, not_true_eq_false, if_false, ite_false, reduceIte,
      Position.movePiece]
    rw [boardKey_update _ _ _ ht64, boardKey_update _ _ _ hf64]
    simp [Function.update_apply, hft, Ne.symm hft, hcap, Zpsq_zero,
      Nat.xor_assoc, Nat.xor_comm, xorLeftComm, xor_self_left, Nat.xor_self,
      Nat.xor_zero, Nat.zero_xor]
  · simp only [hcap, ne_eq, not_false_eq_true, if_true, ite_true, reduceIte,
      Position.movePiece, Position.removePiece]
    rw [boardKey_update _ _ _ ht64, boardKey_update _ _ _ hf64, boardKey_update _ _ _ ht64]
    simp [Function.update_apply, hft, Ne.symm hft, Zpsq_zero,
      Nat.xor_assoc, Nat.xor_comm, xorLeftComm, xor_self_left, Nat.xor_self,
      Nat.xor_zero, Nat.zero_xor]

theorem boardKey_ep (p : Position) (f t pr : Nat)
    (hf64 : f < 64) (ht64 : t < 64) (hft : f ≠ t)
    (hbt : p.board t = 0)
    (he64 : ((t : Int) - pawnPush p.sideToMove).toNat < 64)
    (hef : ((t : Int) - pawnPush p.sideToMove).toNat ≠ f)
    (het : ((t : Int) - pawnPush p.sideToMove).toNat ≠ t) :
    boardKey (doMoveP4 p ⟨f, t, .enPassant, pr⟩).board
      = boardKey p.board
        ^^^ Zpsq (p.board (((t : Int) - pawnPush p.sideToMove).toNat))
              (((t : Int) - pawnPush p.sideToMove).toNat)
        ^^^ Zpsq (p.board f) f ^^^ Zpsq (p.board f) t := by
  have hce : makePiece p.sideToMove.flip 1 ≠ 0 := makePiece_ne_zero _ 1 (by omega)
  have hcet : typeOf (makePiece p.sideToMove.flip 1) = 1 := typeOf_makePiece _ 1 (by omega)
  simp only [doMoveP4, doMoveP3, doMoveP2, doMoveP1, moveCaptured, moveT1, moveCapSq,
    mtE1, mtE2, if_false, ite_false, and_false, false_and, reduceIte, hce, hcet,
    ne_eq, not_false_eq_true, if_true, ite_true, and_true, true_and, and_self]
  simp only [Position.movePiece, Position.removePiece]
  rw [boardKey_update _ _ _ ht64, boardKey_update _ _ _ hf64, boardKey_update _ _ _ he64]
  simp [Function.update_apply, hft, Ne.symm hft, hef, Ne.symm hef, het, Ne.symm het,
    hbt, Zpsq_zero, Nat.xor_assoc, Nat.xor_comm, xorLeftComm, xor_self_left, Nat.xor_self,
    Nat.xor_zero, Nat.zero_xor]

theorem boardKey_promotion (p : Position) (f t pr : Nat)
    (hf64 : f < 64) (ht64 : t < 64) (hft : f ≠ t)
    (hpft : typeOf (p.board f) = 1)
    (hxor : t ^^^ f ≠ 16) :
    boardKey (doMoveP4 p ⟨f, t, .promotion, pr⟩).board
      = boardKey p.board ^^^ Zpsq (p.board t) t ^^^ Zpsq (p.board f) f
        ^^^ Zpsq (makePiece p.sideToMove pr) t := by
  have hndp : ¬ moveIsDP p ⟨f, t, .promotion, pr⟩ := by
    intro h
    exact hxor (by simpa [moveIsDP, moveT1, mtP1] using h.1)
  simp only [doMoveP4, doMoveP3, doMoveP2, doMoveP1, moveCaptured, moveT1, moveCapSq,
    mtP1, mtP2, eq_self_iff_true, if_false, ite_false, if_true, ite_true, hpft, hndp,
    not_false_eq_true, and_true, true_and, and_self, reduceIte, ne_eq, false_and,
    and_false]
  by_cases hcap : p.board t = 0
  · simp only [hcap, ne_eq, not_true_eq_false, if_false, ite_false, reduceIte,
      Position.movePiece, Position.removePiece, Position.putPiece]
    rw [boardKey_update _ _ _ ht64, boardKey_update _ _ _ ht64, boardKey_update _ _ _ ht64,
      boardKey_update _ _ _ hf64]
    simp [Function.update_apply, hft, Ne.symm hft, hcap, Zpsq_zero,
      Nat.xor_assoc, Nat.xor_comm, xorLeftComm, xor_self_left, Nat.xor_self,
      Nat.xor_zero, Nat.zero_xor]
  · simp only [hcap, ne_eq, not_false_eq_true, if_true, ite_true, reduceIte,
      Position.movePiece, Position.removePiece, Position.putPiece]
    rw [boardKey_update _ _ _ ht64, boardKey_update _ _ _ ht64, boardKey_update _ _ _ ht64,
      boardKey_update _ _ _ hf64, boardKey_update _ _ _ ht64]
    simp [Function.update_apply, hft, Ne.symm hft, Zpsq_zero,
      Nat.xor_assoc, Nat.xor_comm, xorLeftComm, xor_self_left, Nat.xor_self,
      Nat.xor_zero, Nat.zero_xor]

theorem boardKey_castling (p : Position) (f t kto rto pr : Nat)
    (hf64 : f < 64) (ht64 : t < 64) (hft : f ≠ t)
    (hK : kto = relativeSquare p.sideToMove (if f < t then 6 else 2))
    (hR : rto = relativeSquare p.sideToMove (if f < t then 5 else 3))
    (hbK : p.board kto = 0) (hbR : p.board rto = 0)
    (hK64 : kto < 64) (hR64 : rto < 64)
    (hKf : kto ≠ f) (hKt : kto ≠ t) (hRf : rto ≠ f) (hRt : rto ≠ t) (hKR : kto ≠ rto)
    (hpf6 : typeOf (p.board f) = 6) :
    boardKey (doMoveP4 p ⟨f, t, .castling, pr⟩).board
      = boardKey p.board ^^^ Zpsq (p.board f) f ^^^ Zpsq (p.board t) t
        ^^^ Zpsq (makePiece p.sideToMove 6) kto ^^^ Zpsq (makePiece p.sideToMove 4) rto := by
  subst hK
  subst hR
  have hpf1 : ¬ typeOf (p.board f) = 1 := by rw [hpf6]; omega
  simp only [doMoveP4, doMoveP3, doMoveP2, doMoveP1, moveCaptured, moveT1, moveCapSq,
    mtC1, mtC2, eq_self_iff_true, if_false, ite_false, if_true, ite_true, hpf1,
    not_false_eq_true, false_and, and_false, reduceIte, ne_eq, not_true_eq_false]
  simp only [Position.doCastling, Position.movePiece, Position.putPiece, Position.removePiece,
    Bool.false_eq_true, Bool.true_eq_false, if_false, ite_false, if_true, ite_true]
  rw [boardKey_update _ _ _ hR64, boardKey_update _ _ _ hK64, boardKey_update _ _ _ ht64,
    boardKey_update _ _ _ hf64, boardKey_update _ _ _ ht64, boardKey_update _ _ _ hf64]
  simp [Function.update_apply, hft, Ne.symm hft, hKf, Ne.symm hKf, hKt, Ne.symm hKt,
    hRf, Ne.symm hRf, hRt, Ne.symm hRt, hKR, Ne.symm hKR, hbK, hbR, Zpsq_zero,
    Nat.xor_assoc, Nat.xor_comm, xorLeftComm, xor_self_left, Nat.xor_self,
    Nat.xor_zero, Nat.zero_xor]

end Position


namespace Position

theorem ite_xor_Zpsq (X v s : Nat) :
    (if v ≠ 0 then X ^^^ Zpsq v s else X) = X ^^^ Zpsq v s := by
  by_cases h : v = 0 <;> simp [h, Zpsq_zero]

/-- scratchKey of the post-move position, in terms of the carrier values. -/
theorem scratchKey_doMove (p : Position) (m : Move) (g : Bool) :
    scratchKey (p.doMove m g)
      = (match moveEp p m with
          | some e => boardKey (doMoveP4 p m).board ^^^ Zenpassant (fileOf e)
          | none => boardKey (doMoveP4 p m).board) ^^^
        (if p.sideToMove.flip = .black then Zside else 0) ^^^
        Zcastling (moveRights p m) := by
  unfold scratchKey
  rw [show (p.doMove m g).board = (doMoveP4 p m).board from rfl]
  rw [doMove_epSquare, doMove_sideToMove, doMove_castlingRights]
  rcases moveEp p m with _ | e <;>
    by_cases hb : p.sideToMove.flip = .black <;>
    simp [hb, Nat.xor_assoc, Nat.xor_comm, xorLeftComm]

theorem keyInv_normal (p : Position) (f t pr : Nat) (g : Bool)
    (hf64 : f < 64) (ht64 : t < 64) (hft : f ≠ t)
    (hkey : p.st.key = scratchKey p) :
    (p.doMove ⟨f, t, .normal, pr⟩ g).st.key
      = scratchKey (p.doMove ⟨f, t, .normal, pr⟩ g) := by
  rw [doMove_key, scratchKey_doMove p _ g, boardKey_normal p f t pr hf64 ht64 hft]
  unfold moveKey
  simp only [moveCaptured, moveT1, moveCapSq, moveEp, moveRights, moveEpNew, mtF1, mtF2, mtF3,
    if_false, ite_false, false_and, and_false, reduceIte, ne_eq, not_false_eq_true,
    if_true, ite_true, ite_xor_Zpsq]
  rw [hkey]
  unfold scratchKey
  rcases hep : p.st.epSquare with _ | e <;>
    by_cases h1 : typeOf (p.board f) = 1 <;>
    by_cases hdp : moveIsDP p ⟨f, t, .normal, pr⟩ <;>
    by_cases hR : p.st.castlingRights ≠ 0 ∧
      (p.castlingRightsMask f ||| p.castlingRightsMask t) ≠ 0 <;>
    cases hus : p.sideToMove <;>
    simp [hep, h1, hdp, hR, hus, moveEpNew, moveT1, mtF1, Color.flip, Zpsq_zero,
      Nat.xor_assoc, Nat.xor_comm, xorLeftComm, xor_self_left, Nat.xor_self,
      Nat.xor_zero, Nat.zero_xor]

end Position


namespace Position

theorem keyInv_ep (p : Position) (f t pr : Nat) (g : Bool)
    (hf64 : f < 64) (ht64 : t < 64) (hft : f ≠ t)
    (hbt : p.board t = 0)
    (hcapb : p.board (((t : Int) - pawnPush p.sideToMove).toNat)
      = makePiece p.sideToMove.flip 1)
    (he64 : ((t : Int) - pawnPush p.sideToMove).toNat < 64)
    (hef : ((t : Int) - pawnPush p.sideToMove).toNat ≠ f)
    (het : ((t : Int) - pawnPush p.sideToMove).toNat ≠ t)
    (hkey : p.st.key = scratchKey p) :
    (p.doMove ⟨f, t, .enPassant, pr⟩ g).st.key
      = scratchKey (p.doMove ⟨f, t, .enPassant, pr⟩ g) := by
  have hce : makePiece p.sideToMove.flip 1 ≠ 0 := makePiece_ne_zero _ 1 (by omega)
  have hcet : typeOf (makePiece p.sideToMove.flip 1) = 1 := typeOf_makePiece _ 1 (by omega)
  rw [doMove_key, scratchKey_doMove p _ g,
    boardKey_ep p f t pr hf64 ht64 hft hbt he64 hef het]
  unfold moveKey
  simp only [moveCaptured, moveT1, moveCapSq, moveEp, moveRights, moveEpNew, mtE1, mtE2,
    if_false, ite_false, false_and, and_false, reduceIte, ne_eq, not_false_eq_true,
    if_true, ite_true, hce, hcet, and_true, true_and, and_self, eq_self_iff_true]
  rw [hkey]
  unfold scratchKey
  rcases hep : p.st.epSquare with _ | e <;>
    by_cases h1 : typeOf (p.board f) = 1 <;>
    by_cases hdp : moveIsDP p ⟨f, t, .enPassant, pr⟩ <;>
    by_cases hR : p.st.castlingRights ≠ 0 ∧
      (p.castlingRightsMask f ||| p.castlingRightsMask t) ≠ 0 <;>
    cases hus : p.sideToMove <;>
    simp [hep, h1, hdp, hR, hus, moveEpNew, moveT1, mtE1, hcapb, hus ▸ hcapb, Color.flip,
      Zpsq_zero,
      Nat.xor_assoc, Nat.xor_comm, xorLeftComm, xor_self_left, Nat.xor_self,
      Nat.xor_zero, Nat.zero_xor]

theorem keyInv_promotion (p : Position) (f t pr : Nat) (g : Bool)
    (hf64 : f < 64) (ht64 : t < 64) (hft : f ≠ t)
    (hpft : typeOf (p.board f) = 1)
    (hxor : t ^^^ f ≠ 16)
    (hkey : p.st.key = scratchKey p) :
    (p.doMove ⟨f, t, .promotion, pr⟩ g).st.key
      = scratchKey (p.doMove ⟨f, t, .promotion, pr⟩ g) := by
  have hndp : ¬ moveIsDP p ⟨f, t, .promotion, pr⟩ := by
    intro h
    exact hxor (by simpa [moveIsDP, moveT1, mtP1] using h.1)
  rw [doMove_key, scratchKey_doMove p _ g,
    boardKey_promotion p f t pr hf64 ht64 hft hpft hxor]
  unfold moveKey
  simp only [moveCaptured, moveT1, moveCapSq, moveEp, moveRights, moveEpNew, mtP1, mtP2,
    if_false, ite_false, false_and, and_false, reduceIte, ne_eq, not_false_eq_true,
    if_true, ite_true, hpft, hndp, and_true, true_and, and_self, eq_self_iff_true,
    ite_xor_Zpsq]
  rw [hkey]
  unfold scratchKey
  rcases hep : p.st.epSquare with _ | e <;>
    by_cases hR : p.st.castlingRights ≠ 0 ∧
      (p.castlingRightsMask f ||| p.castlingRightsMask t) ≠ 0 <;>
    cases hus : p.sideToMove <;>
    simp [hep, hR, hus, moveEpNew, moveT1, mtP1, hpft, hndp, Color.flip, Zpsq_zero,
      Nat.xor_assoc, Nat.xor_comm, xorLeftComm, xor_self_left, Nat.xor_self,
      Nat.xor_zero, Nat.zero_xor]

theorem keyInv_castling (p : Position) (f t kto rto pr : Nat) (g : Bool)
    (hf64 : f < 64) (ht64 : t < 64) (hft : f ≠ t)
    (hK : kto = relativeSquare p.sideToMove (if f < t then 6 else 2))
    (hR : rto = relativeSquare p.sideToMove (if f < t then 5 else 3))
    (hbf : p.board f = makePiece p.sideToMove 6)
    (hbt : p.board t = makePiece p.sideToMove 4)
    (hbK : p.board kto = 0) (hbR : p.board rto = 0)
    (hK64 : kto < 64) (hR64 : rto < 64)
    (hKf : kto ≠ f) (hKt : kto ≠ t) (hRf : rto ≠ f) (hRt : rto ≠ t) (hKR : kto ≠ rto)
    (hkey : p.st.key = scratchKey p) :
    (p.doMove ⟨f, t, .castling, pr⟩ g).st.key
      = scratchKey (p.doMove ⟨f, t, .castling, pr⟩ g) := by
  have hpf6 : typeOf (p.board f) = 6 := by
    rw [hbf]; exact typeOf_makePiece _ 6 (by omega)
  rw [doMove_key, scratchKey_doMove p _ g,
    boardKey_castling p f t kto rto pr hf64 ht64 hft hK hR hbK hbR hK64 hR64
      hKf hKt hRf hRt hKR hpf6]
  subst hK
  subst hR
  have hpf1 : ¬ typeOf (p.board f) = 1 := by rw [hpf6]; omega
  unfold moveKey
  simp only [moveCaptured, moveT1, moveCapSq, moveEp, moveRights, moveEpNew, mtC1, mtC2,
    if_false, ite_false, false_and, and_false, reduceIte, ne_eq, not_false_eq_true,
    if_true, ite_true, hpf1, and_true, true_and, and_self, eq_self_iff_true,
    not_true_eq_false, Position.doCastling]
  rw [hkey]
  unfold scratchKey
  rcases hep : p.st.epSquare with _ | e <;>
    cases hus : p.sideToMove <;>
    simp [hep, hus, hbf, hbt, Color.flip, relativeSquare, Zpsq_zero,
      Nat.xor_assoc, Nat.xor_comm, xorLeftComm, xor_self_left, Nat.xor_self,
      Nat.xor_zero, Nat.zero_xor] <;>
    (try split_ifs <;>
      simp [Nat.xor_assoc, Nat.xor_comm, xorLeftComm, xor_self_left, Nat.xor_self,
        Nat.xor_zero, Nat.zero_xor])

end Position


namespace Position

theorem scratchKey_congr (p q : Position)
    (hb : boardKey p.board = boardKey q.board)
    (he : p.st.epSquare = q.st.epSquare)
    (hs : p.sideToMove = q.sideToMove)
    (hc : p.st.castlingRights = q.st.castlingRights) :
    scratchKey p = scratchKey q := by
  unfold scratchKey
  rw [hb, he, hs, hc]

/-- The board restoration of do/undo, dispatched over the move type. -/
theorem undo_board (p : Position) (m : Move) (g : Bool) (hWF : WF p)
    (hpre : MovePre p m) (s : Nat) :
    ((p.doMove m g).undoMove m).board s = p.board s := by
  obtain ⟨f, t, mt, pr⟩ := m
  obtain ⟨hf64, ht64, hft, hrest⟩ := hpre
  cases mt
  case normal => exact (roundtrip_normal p f t pr g hWF hf64 ht64 hft hrest).1 s
  case enPassant =>
    obtain ⟨h1, h2, h3, h4, h5, h6⟩ := hrest
    exact (roundtrip_enpassant p f t pr g hWF hf64 ht64 hft h1 h2 h3 h4 h5 h6).1 s
  case promotion =>
    obtain ⟨h1, h2, h3, h4⟩ := hrest
    exact (roundtrip_promotion p f t pr g hWF hf64 ht64 hft h1 h2 h3 h4).1 s
  case castling =>
    obtain ⟨h1, h2, h3, h4, h5, h6, h7, h8, h9, h10, h11⟩ := hrest
    exact (roundtrip_castling p f t _ _ pr g hWF hf64 ht64 hft rfl rfl
      h1 h2 h3 h4 h5 h6 h7 h8 h9 h10 h11).1 s

theorem keyInv_doMove (p : Position) (m : Move) (g : Bool)
    (hpre : MovePre p m) (hkey : p.st.key = scratchKey p) :
    (p.doMove m g).st.key = scratchKey (p.doMove m g) := by
  obtain ⟨f, t, mt, pr⟩ := m
  obtain ⟨hf64, ht64, hft, hrest⟩ := hpre
  cases mt
  case normal => exact keyInv_normal p f t pr g hf64 ht64 hft hkey
  case enPassant =>
    obtain ⟨h1, h2, h3, h4, h5, h6⟩ := hrest
    exact keyInv_ep p f t pr g hf64 ht64 hft h2 h3 h4 h5 h6 hkey
  case promotion =>
    obtain ⟨h1, h2, h3, h4⟩ := hrest
    have hpft : typeOf (p.board f) = 1 := by
      rw [h1]; exact typeOf_makePiece _ 1 (by omega)
    exact keyInv_promotion p f t pr g hf64 ht64 hft hpft h4 hkey
  case castling =>
    obtain ⟨h1, h2, h3, h4, h5, h6, h7, h8, h9, h10, h11⟩ := hrest
    exact keyInv_castling p f t _ _ pr g hf64 ht64 hft rfl rfl
      h1 h2 h3 h4 h5 h6 h7 h8 h9 h10 h11 hkey

theorem keyInv_undo (p : Position) (m : Move) (g : Bool) (hWF : WF p)
    (hpre : MovePre p m) (hkey : p.st.key = scratchKey p) :
    ((p.doMove m g).undoMove m).st.key = scratchKey ((p.doMove m g).undoMove m) :=
  calc ((p.doMove m g).undoMove m).st.key
      = p.st.key := by rw [roundtrip_st]
    _ = scratchKey p := hkey
    _ = scratchKey ((p.doMove m g).undoMove m) :=
        scratchKey_congr p _ (boardKey_congr _ _ fun s _ => (undo_board p m g hWF hpre s).symm)
          (by rw [roundtrip_st]) (by rw [roundtrip_side]) (by rw [roundtrip_st])

/-- The positions the engine reaches: set() on an arbitrary well-formed
piece placement (the setState call at the end of Position::set), followed
by any sequence of do_move and matching undo_move calls with legal
arguments. -/
inductive KeyReach : Position → Prop where
  | base (p : Position) (hWF : WF p) : KeyReach { p with st := p.setState }
  | step (p : Position) (m : Move) (g : Bool) (hWF : WF p) (hpre : MovePre p m)
      (h : KeyReach p) : KeyReach (p.doMove m g)
  | undo (p : Position) (m : Move) (g : Bool) (hWF : WF p) (hpre : MovePre p m)
      (h : KeyReach p) : KeyReach ((p.doMove m g).undoMove m)

end Position


namespace Position

/-- C2: for every position reached by set() on a well-formed placement
followed by any sequence of legal do_move/undo_move calls, the stored
hash key equals the from-scratch recomputation: the XOR over all occupied
squares of the (piece, square) Zobrist constants, the side key if Black
is to move, the en-passant file key if set, and the castling-rights
key. -/
theorem key_eq_scratchKey (p : Position) (h : KeyReach p) :
    p.st.key = scratchKey p := by
  induction h with
  | base q hWF => exact setState_key q hWF
  | step q m g hWF hpre h ih => exact keyInv_doMove q m g hpre ih
  | undo q m g hWF hpre h ih => exact keyInv_undo q m g hWF hpre ih

/-- The piece placement of the key-invariant witness before set_state. -/
def c2Pre : Position := mkPos [(4, 6), (7, 4), (60, 14)] .white [] none 0 0

theorem key_eq_scratchKey_witness :
    (({ c2Pre with st := c2Pre.setState } : Position).doMove ⟨7, 31, .normal, 0⟩ false).st.key
      = scratchKey (({ c2Pre with st := c2Pre.setState } : Position).doMove
          ⟨7, 31, .normal, 0⟩ false) :=
  key_eq_scratchKey _
    (KeyReach.step { c2Pre with st := c2Pre.setState } ⟨7, 31, .normal, 0⟩ false
      (by decide) (by decide) (KeyReach.base c2Pre (by decide)))

end Position

end TalFish
